import Mathlib

/-!
# Supernote backend: persistence gateway and request handlers

A shallow embedding of `backend/internal/database/queries.go`,
`backend/internal/database/db.go`, `backend/internal/handlers/notes.go` and
`backend/internal/handlers/health.go`.

* Go strings are Lean strings, Go `int` is `Int` (64 bit range checked where
  `strconv.Atoi` checks it), a Go `error` is its message.
* The relational store is a list of rows of table `notes`; each SQL statement
  of `queries.go` is a function on that list.  A `Fault` argument stands for
  what the environment does to one pool call (nothing, a failed call, a
  failure while rows are streamed).
* `float32` and `float64` data are IEEE-754 bit patterns.
-/

namespace Supernote

/-! ## Scalars -/

/-- A `uuid.UUID`: sixteen bytes. -/
abbrev UUID := List Nat

/-- The value `uuid.Nil`. -/
def uuidNil : UUID := List.replicate 16 0

/-- The function `uuid.New`: sixteen random bytes, then the version nibble of byte 6
is set to 4 and the variant bits of byte 8 to `10`. -/
def uuidNew (rnd : List Nat) : UUID :=
  (List.range 16).map fun i =>
    if i = 6 then rnd.getD 6 0 % 16 + 64
    else if i = 8 then rnd.getD 8 0 % 64 + 128
    else rnd.getD i 0 % 256

/-- The bytes of a Go string. -/
def bytes (s : String) : List Nat :=
  (s.data.flatMap String.utf8EncodeChar).map UInt8.toNat

/-- Value of a hexadecimal digit (table `xvalues` of the uuid package). -/
def xvalue (b : Nat) : Option Nat :=
  if 48 ≤ b ∧ b ≤ 57 then some (b - 48)
  else if 97 ≤ b ∧ b ≤ 102 then some (b - 87)
  else if 65 ≤ b ∧ b ≤ 70 then some (b - 55)
  else Option.none

/-- The helper `xtob`: one byte from two hexadecimal digits. -/
def xtob (x1 x2 : Nat) : Option Nat :=
  match xvalue x1, xvalue x2 with
  | some a, some b => some (a * 16 + b)
  | _, _ => Option.none

/-- Bytes read at the given offsets of `s`, two digits each. -/
def hexAt (s : List Nat) : List Nat → Option (List Nat)
  | [] => some []
  | x :: xs =>
    match xtob (s.getD x 0) (s.getD (x + 1) 0), hexAt s xs with
    | some v, some vs => some (v :: vs)
    | _, _ => Option.none

/-- The layout `xxxxxxxx-xxxx-xxxx-xxxx-xxxxxxxxxxxx`, on at least 36 bytes. -/
def parseHyphenated (s : List Nat) : Option UUID :=
  if s.getD 8 0 ≠ 45 ∨ s.getD 13 0 ≠ 45 ∨ s.getD 18 0 ≠ 45 ∨ s.getD 23 0 ≠ 45 then Option.none
  else hexAt s [0, 2, 4, 6, 9, 11, 14, 16, 19, 21, 24, 26, 28, 30, 32, 34]

/-- ASCII lower case of a byte. -/
def lowerByte (b : Nat) : Nat :=
  if 65 ≤ b ∧ b ≤ 90 then b + 32 else b

/-- The function `uuid.Parse` of `github.com/google/uuid`, the library the handlers
import: it switches on the byte length (36 plain, 45 with the prefix `urn:uuid:`,
38 with one byte around each end, 32 bare hexadecimal) and fails on any other
length.  `none` is `err != nil`. -/
def uuidParse (str : String) : Option UUID :=
  let s := bytes str
  if s.length = 36 then parseHyphenated s
  else if s.length = 45 then
    if (s.take 9).map lowerByte = bytes "urn:uuid:" then parseHyphenated (s.drop 9)
    else Option.none
  else if s.length = 38 then parseHyphenated (s.drop 1)
  else if s.length = 32 then
    hexAt s [0, 2, 4, 6, 8, 10, 12, 14, 16, 18, 20, 22, 24, 26, 28, 30]
  else Option.none

/-- A `time.Time` / `timestamptz` instant: microseconds counted from the zero value of
`time.Time`. -/
abbrev Time := Int

/-- The zero value `time.Time{}`, which a note carries while no timestamp was set. -/
def zeroTime : Time := 0

/-- A `float32`, by its bit pattern. -/
structure Float32 where
  bits : Nat
  deriving DecidableEq, Repr

/-- A `float64`, by its bit pattern. -/
structure Float64 where
  bits : Nat
  deriving DecidableEq, Repr

namespace Float32

/-- Exponent all ones and a non-zero mantissa. -/
def isNaN (f : Float32) : Bool :=
  (f.bits / 2 ^ 23) % 256 == 255 && f.bits % 2 ^ 23 != 0

/-- Sign and magnitude of a number read as an integer: order isomorphic to the
numeric order on the values that are not NaN (the two zeros coincide). -/
def key (f : Float32) : Int :=
  if (f.bits / 2 ^ 31) % 2 = 0 then ((f.bits % 2 ^ 31 : Nat) : Int)
  else -((f.bits % 2 ^ 31 : Nat) : Int)

/-- Position in the store's ascending order of floating-point numbers, where NaN sorts
after every number and equals itself. -/
def pgRank (f : Float32) : Int :=
  if f.isNaN then 2 ^ 31 else f.key

/-- The comparison `a <= b` of Go: false as soon as one side is NaN. -/
def le (a b : Float32) : Bool :=
  !a.isNaN && !b.isNaN && decide (a.key ≤ b.key)

end Float32

/-- Index of the highest set bit of `a` (0 for `a < 2`); the first argument bounds the
number of halvings and `a` itself always suffices. -/
def log2Aux : Nat → Nat → Nat
  | 0, _ => 0
  | fuel + 1, a => if a < 2 then 0 else log2Aux fuel (a / 2) + 1

/-- The conversion `float64(n)` of an integer: round to nearest, ties to even, on a 53
bit significand. -/
def float64OfInt (n : Int) : Float64 :=
  if n = 0 then ⟨0⟩
  else
    let a := n.natAbs
    let l := log2Aux a a
    let sign := if n < 0 then 2 ^ 63 else 0
    if l ≤ 52 then
      ⟨sign + (l + 1023) * 2 ^ 52 + (a * 2 ^ (52 - l) - 2 ^ 52)⟩
    else
      let shift := l - 52
      let q := a / 2 ^ shift
      let r := a % 2 ^ shift
      let half := 2 ^ (shift - 1)
      let q1 := if r > half ∨ (r = half ∧ q % 2 = 1) then q + 1 else q
      if q1 = 2 ^ 53 then ⟨sign + (l + 1 + 1023) * 2 ^ 52⟩
      else ⟨sign + (l + 1023) * 2 ^ 52 + (q1 - 2 ^ 52)⟩

/-! ## `strconv.Atoi` -/

/-- Value of a decimal digit, `none` for any other byte. -/
def digitVal (c : Char) : Option Nat :=
  if '0' ≤ c ∧ c ≤ '9' then some (c.toNat - '0'.toNat) else none

/-- The digit loop `n = n*10 + int(ch)`; `none` is the syntax error. -/
def parseDigits : List Char → Nat → Option Nat
  | [], n => some n
  | ch :: rest, n =>
    match digitVal ch with
    | some d => parseDigits rest (n * 10 + d)
    | none => none

/-- Largest `int` (64 bit). -/
def maxInt : Int := 2 ^ 63 - 1

/-- Smallest `int` (64 bit). -/
def minInt : Int := -(2 ^ 63)

/-- The function `strconv.Atoi`: an optional sign, then one or more decimal digits, the
value inside the range of `int`.  `none` stands for `err != nil` (syntax or range);
the number Go returns next to an error is dropped, no caller in this repository reads
it. -/
def Atoi (s : String) : Option Int :=
  match s.data with
  | [] => none
  | c :: cs =>
    let neg := c = '-'
    let ds := if c = '-' ∨ c = '+' then cs else c :: cs
    if ds = [] then none
    else
      match parseDigits ds 0 with
      | none => none
      | some n =>
        let v : Int := if neg then -(n : Int) else (n : Int)
        if minInt ≤ v ∧ v ≤ maxInt then some v else none

/-! ## `encoding/json` on `map[string]interface{}` -/

/-- Neither NaN nor an infinity: the exponent is not all ones. -/
def Float64.isFinite (x : Float64) : Bool :=
  (x.bits / 2 ^ 52) % 2048 != 2047

/-- A Go value held in an `interface{}` of a metadata map.  `null` is the untyped nil;
`slice` and `map` are a non-nil `[]interface{}` and a non-nil
`map[string]interface{}`, `nilSlice` and `nilMap` the nil values of those two types;
`int` is an integer of at most 64 bits; `typed v` is a value of any other type
(`[]string`, `map[string]string`, a struct, a pointer, a `float32`, ...) whose JSON
text is the text of `v`; `unsupported` is a value `encoding/json` has no text for
(channel, function, complex number).  Strings and keys are valid UTF-8. -/
inductive GoValue where
  | null
  | bool (b : Bool)
  | int (n : Int)
  | float64 (x : Float64)
  | str (s : String)
  | slice (xs : List GoValue)
  | nilSlice
  | map (kvs : List (String × GoValue))
  | nilMap
  | typed (v : GoValue)
  | unsupported
  deriving Repr

/-- A number literal of a JSON text: the one the integer encoder writes for `n`, or the
one the float encoder writes for `x` (the shortest decimal that reads back as `x`). -/
inductive JNumber where
  | int (n : Int)
  | float (x : Float64)
  deriving DecidableEq, Repr

/-- A JSON value. -/
inductive JSON where
  | null
  | bool (b : Bool)
  | num (n : JNumber)
  | str (s : String)
  | arr (xs : List JSON)
  | obj (kvs : List (String × JSON))
  deriving Repr

/-- A Go `map[string]interface{}`: `none` is the nil map. -/
abbrev Metadata := Option (List (String × GoValue))

mutual
/-- The encoder `json.Marshal` on one value; `none` is an `UnsupportedTypeError` or an
`UnsupportedValueError` (NaN, infinity), and stands also for an `int` that no
integer type of Go holds.  A nil slice and a nil map are written `null`. -/
def marshalValue : GoValue → Option JSON
  | .null => some .null
  | .bool b => some (.bool b)
  | .int n => if -(2 ^ 63) ≤ n ∧ n < 2 ^ 64 then some (.num (.int n)) else Option.none
  | .float64 x => if x.isFinite then some (.num (.float x)) else Option.none
  | .str s => some (.str s)
  | .slice xs => (marshalList xs).map JSON.arr
  | .nilSlice => some .null
  | .map kvs => (marshalFields kvs).map JSON.obj
  | .nilMap => some .null
  | .typed v => marshalValue v
  | .unsupported => Option.none
/-- Elements of a slice. -/
def marshalList : List GoValue → Option (List JSON)
  | [] => some []
  | v :: vs =>
    match marshalValue v, marshalList vs with
    | some j, some js => some (j :: js)
    | _, _ => Option.none
/-- Members of a map. -/
def marshalFields : List (String × GoValue) → Option (List (String × JSON))
  | [] => some []
  | (k, v) :: kvs =>
    match marshalValue v, marshalFields kvs with
    | some j, some js => some ((k, j) :: js)
    | _, _ => Option.none
end

/-- The call `json.Marshal(note.Metadata)`: the nil map encodes as `null`. -/
def marshalMetadata : Metadata → Option JSON
  | Option.none => some .null
  | some kvs => (marshalFields kvs).map JSON.obj

/-- The number `2 ^ 1024 - 2 ^ 970`: the least magnitude that rounds to an infinity, half a
unit in the last place above the largest `float64`. -/
def float64Overflow : Nat :=
  179769313486231580793728971405303415079934132710037826936173778980444968292764750946649017977587207096330286416692887910946555547851940402630657488671505820681908902000708383676273854845817711531764475730270069855571366959622842914819860834936475292719074168444365510704342711559699508093042880177904174497792

mutual
/-- The decoder `json.Unmarshal` into an `interface{}`: `null` becomes the untyped
nil, every number a `float64`, an array a non-nil `[]interface{}`, an object a
non-nil `map[string]interface{}`.  `none` is the error on a number literal that no
`float64` holds (it rounds to an infinity). -/
def unmarshalValue : JSON → Option GoValue
  | .null => some .null
  | .bool b => some (.bool b)
  | .num (.int n) =>
    if n.natAbs < float64Overflow then some (.float64 (float64OfInt n)) else Option.none
  | .num (.float x) => if x.isFinite then some (.float64 x) else Option.none
  | .str s => some (.str s)
  | .arr xs => (unmarshalList xs).map GoValue.slice
  | .obj kvs => (unmarshalFields kvs).map GoValue.map
/-- Elements of an array. -/
def unmarshalList : List JSON → Option (List GoValue)
  | [] => some []
  | j :: js =>
    match unmarshalValue j, unmarshalList js with
    | some v, some vs => some (v :: vs)
    | _, _ => Option.none
/-- Members of an object. -/
def unmarshalFields : List (String × JSON) → Option (List (String × GoValue))
  | [] => some []
  | (k, j) :: kvs =>
    match unmarshalValue j, unmarshalFields kvs with
    | some v, some vs => some ((k, v) :: vs)
    | _, _ => Option.none
end

/-- The call `json.Unmarshal(metadataJSON, &note.Metadata)` on a fresh note.  `none` is
the empty byte slice a NULL column scans to. -/
def unmarshalMetadata : Option JSON → Except String Metadata
  | Option.none => .error "unexpected end of JSON input"
  | some .null => .ok Option.none
  | some (.obj kvs) =>
    match unmarshalFields kvs with
    | some m => .ok (some m)
    | Option.none => .error "json: cannot unmarshal number into Go value of type float64"
  | some _ => .error "json: cannot unmarshal into Go value of type map"

/-! ## Data model (`models/note.go`) -/

/-- The struct `models.Note`.  A nil slice is the empty list, a nil map is `none`. -/
structure Note where
  ID : UUID
  UserID : Option UUID
  Title : String
  Content : String
  ChunkContent : String
  Embedding : List Float32
  Metadata : Metadata
  CreatedAt : Time
  UpdatedAt : Time

/-- The struct `models.SearchResult`. -/
structure SearchResult where
  Note : Note
  SimilarityScore : Float32

/-! ## The store -/

/-- Modelled from the spec: the persisted schema
`notes(id, user_id, title, content, chunk_content, embedding, metadata, created_at,
updated_at)`, whose DDL is not among the sources.  `id` is the key (unique, never
NULL); every other column may hold NULL (`none`). -/
structure Row where
  id : UUID
  user_id : Option UUID
  title : Option String
  content : Option String
  chunk_content : Option String
  embedding : Option (List Float32)
  metadata : Option JSON
  created_at : Option Time
  updated_at : Option Time

/-- Contents of table `notes`, in insertion order. -/
abbrev Store := List Row

/-- What the environment does to one call on the connection pool. -/
inductive Fault where
  /-- The call runs to completion. -/
  | none
  /-- The call fails as a whole: connectivity, timeout, cancelled context. -/
  | call (msg : String)
  /-- The connection breaks after `delivered` rows of a result were read. -/
  | stream (delivered : Nat) (msg : String)

/-- An error value returned by pgx. -/
inductive PgErr where
  /-- The sentinel `pgx.ErrNoRows`. -/
  | ErrNoRows
  | other (msg : String)

/-- The method `Error()`. -/
def PgErr.Error : PgErr → String
  | .ErrNoRows => "no rows in result set"
  | .other msg => msg

/-- A `pgx.Rows` cursor: the rows `Next` delivers, then what `Err` reports. -/
structure Rows (α : Type) where
  rows : List α
  err : Option String

/-- Cursor over a result set under a fault. -/
def Rows.deliver {α : Type} (f : Fault) (result : List α) : Except String (Rows α) :=
  match f with
  | .none => .ok ⟨result, Option.none⟩
  | .call msg => .error msg
  | .stream delivered msg => .ok ⟨result.take delivered, some msg⟩

/-- Modelled from the spec: a timestamp column on write.  The spec has the timestamps
assigned by the store on write when they are missing: a timestamp that comes in as
the zero value is replaced by the store's clock, which reads `clock + 1` microseconds
after the zero value, so never the zero value; any other timestamp is kept. -/
def assignTime (clock : Nat) (t : Time) : Time :=
  if t = zeroTime then (clock : Int) + 1 else t

/-- Modelled from the spec: the `INSERT ... RETURNING id, created_at, updated_at` of
`InsertNote` against the schema (not among the sources): `id` is unique, the
timestamps are assigned by the store when missing, and the row returned is the row
stored.  A nil embedding slice is sent as NULL, any other as the vector of its
components, as the comment at the call site has it.  A failed statement leaves the
table as it was. -/
def execInsert (clock : Nat) (f : Fault) (st : Store) (id : UUID) (user_id : Option UUID)
    (title content chunk_content : String) (embedding : List Float32) (metadata : JSON)
    (created_at updated_at : Time) : Except PgErr (UUID × Time × Time) × Store :=
  match f with
  | .none =>
    if st.any (fun r => r.id == id) then
      (.error (.other "duplicate key value violates unique constraint"), st)
    else
      (.ok (id, assignTime clock created_at, assignTime clock updated_at),
        st ++ [{ id := id, user_id := user_id, title := some title, content := some content,
                 chunk_content := some chunk_content,
                 embedding := if embedding = [] then Option.none else some embedding,
                 metadata := some metadata,
                 created_at := some (assignTime clock created_at),
                 updated_at := some (assignTime clock updated_at) }])
  | .call msg => (.error (.other msg), st)
  | .stream _ msg => (.error (.other msg), st)

/-- The statement `SELECT ... FROM notes WHERE id = $1` read through `QueryRow`: the
first matching row, `pgx.ErrNoRows` when none matches. -/
def queryRowByID (f : Fault) (st : Store) (id : UUID) : Except PgErr Row :=
  match f with
  | .none =>
    match st.filter (fun r => r.id == id) with
    | [] => .error .ErrNoRows
    | r :: _ => .ok r
  | .call msg => .error (.other msg)
  | .stream _ msg => .error (.other msg)

/-- Order of `ORDER BY created_at DESC`: NULL first, then later instants first. -/
def createdDesc (a b : Row) : Bool :=
  match a.created_at, b.created_at with
  | Option.none, _ => true
  | some _, Option.none => false
  | some x, some y => decide (y ≤ x)

/-- The statement `SELECT ... FROM notes ORDER BY created_at DESC LIMIT $1 OFFSET $2`. -/
def queryAllNotes (f : Fault) (st : Store) (limit offset : Int) : Except String (Rows Row) :=
  if limit < 0 then .error "LIMIT must not be negative"
  else if offset < 0 then .error "OFFSET must not be negative"
  else
    Rows.deliver f
      (((st.insertionSort (fun a b => createdDesc a b = true)).drop offset.toNat).take
        limit.toNat)

/-- The column `embedding <=> $1`: NULL when either side is NULL.  The score is held as
the `float32` Go scans it into; the conversion from the operator's result is
monotone, so rows ordered by the one are ordered by the other. -/
def similarityScore (dist : List Float32 → List Float32 → Float32)
    (queryEmbedding : List Float32) (r : Row) : Option Float32 :=
  match r.embedding with
  | Option.none => Option.none
  | some e => if queryEmbedding = [] then Option.none else some (dist e queryEmbedding)

/-- Position of a score in `ORDER BY similarity_score ASC`: NULL last. -/
def scoreRank : Option Float32 → Int
  | Option.none => 2 ^ 31 + 1
  | some s => s.pgRank

/-- The statement `SELECT ..., embedding <=> $1 AS similarity_score FROM notes ORDER BY
similarity_score ASC LIMIT $2`.  The distance operator `dist` belongs to the store;
it rejects two vectors of different dimensions. -/
def querySimilar (dist : List Float32 → List Float32 → Float32) (f : Fault) (st : Store)
    (queryEmbedding : List Float32) (limit : Int) :
    Except String (Rows (Row × Option Float32)) :=
  if limit < 0 then .error "LIMIT must not be negative"
  else if st.any (fun r =>
      match r.embedding with
      | Option.none => false
      | some e => queryEmbedding != [] && e.length != queryEmbedding.length) then
    .error "different vector dimensions"
  else
    Rows.deliver f
      (((st.map (fun r => (r, similarityScore dist queryEmbedding r))).insertionSort
        (fun a b => scoreRank a.2 ≤ scoreRank b.2)).take limit.toNat)

/-- The statement `DELETE FROM notes WHERE id = $1`: the number of rows affected and the
table without them. -/
def execDelete (f : Fault) (st : Store) (id : UUID) : Except PgErr Nat × Store :=
  match f with
  | .none => (.ok (st.filter (fun r => r.id == id)).length, st.filter (fun r => !(r.id == id)))
  | .call msg => (.error (.other msg), st)
  | .stream _ msg => (.error (.other msg), st)

/-- The call `Pool.Ping`. -/
def ping (f : Fault) : Option String :=
  match f with
  | .none => Option.none
  | .call msg => some msg
  | .stream _ msg => some msg

/-- The call `Scan(&note.ID, &note.UserID, &note.Title, &note.Content,
&note.ChunkContent, &metadataJSON, &note.CreatedAt, &note.UpdatedAt)` on a fresh
`&models.Note{}`: a NULL cannot be scanned into a `string` or a `time.Time`; it can
into `*uuid.UUID` and into `[]byte`. -/
def scanNote (r : Row) : Except String (Note × Option JSON) :=
  match r.title, r.content, r.chunk_content, r.created_at, r.updated_at with
  | some title, some content, some chunk, some created, some updated =>
    .ok ({ ID := r.id, UserID := r.user_id, Title := title, Content := content,
           ChunkContent := chunk, Embedding := [], Metadata := Option.none,
           CreatedAt := created, UpdatedAt := updated }, r.metadata)
  | _, _, _, _, _ => .error "cannot scan NULL"

/-! ## Persistence gateway (`database/queries.go`, `database/db.go`) -/

namespace DB

/-- The gateway `InsertNote`.  Returns the error (`none` is nil), the note as the
caller sees it afterwards (Go mutates it through the pointer) and the table.  The
arguments `rnd` and `clock` are the random bytes `uuid.New` draws and the reading of
the store's clock. -/
def InsertNote (rnd : List Nat) (clock : Nat) (f : Fault) (st : Store) (note : Note) :
    Option String × Note × Store :=
  match marshalMetadata note.Metadata with
  | Option.none => (some "failed to marshal metadata: json: unsupported value", note, st)
  | some metadataJSON =>
    let note := if note.ID = uuidNil then { note with ID := uuidNew rnd } else note
    match execInsert clock f st note.ID note.UserID note.Title note.Content note.ChunkContent
        note.Embedding metadataJSON note.CreatedAt note.UpdatedAt with
    | (.error err, st1) => (some ("failed to insert note: " ++ err.Error), note, st1)
    | (.ok (id, created, updated), st1) =>
      (Option.none, { note with ID := id, CreatedAt := created, UpdatedAt := updated }, st1)

/-- Body of the loop of `SearchNotesBySimilarity`: scan one row (the score column
cannot take a NULL), unmarshal its metadata, build the result. -/
def searchBody (row : Row × Option Float32) : Except String SearchResult :=
  match scanNote row.1, row.2 with
  | .error msg, _ => .error ("failed to scan row: " ++ msg)
  | .ok _, Option.none => .error ("failed to scan row: " ++ "cannot scan NULL")
  | .ok (note, metadataJSON), some similarityScore =>
    match unmarshalMetadata metadataJSON with
    | .error msg => .error ("failed to unmarshal metadata: " ++ msg)
    | .ok md => .ok { Note := { note with Metadata := md }, SimilarityScore := similarityScore }

/-- The loop `for rows.Next()` of `SearchNotesBySimilarity` followed by the check of
`rows.Err()`; `results` is the slice built so far. -/
def searchLoop (err : Option String) :
    List (Row × Option Float32) → List SearchResult → Except String (List SearchResult)
  | [], results =>
    match err with
    | some msg => .error ("error iterating rows: " ++ msg)
    | Option.none => .ok results
  | row :: rest, results =>
    match searchBody row with
    | .error msg => .error msg
    | .ok result => searchLoop err rest (results ++ [result])

/-- The gateway `SearchNotesBySimilarity`. -/
def SearchNotesBySimilarity (dist : List Float32 → List Float32 → Float32) (f : Fault)
    (st : Store) (queryEmbedding : List Float32) (limit : Int) :
    Except String (List SearchResult) :=
  match querySimilar dist f st queryEmbedding limit with
  | .error msg => .error ("failed to search notes: " ++ msg)
  | .ok rows => searchLoop rows.err rows.rows []

/-- The call `db.Pool.QueryRow(ctx, query, id).Scan(...)` of `GetNoteByID`. -/
def scanRowByID (f : Fault) (st : Store) (id : UUID) : Except PgErr (Note × Option JSON) :=
  match queryRowByID f st id with
  | .error err => .error err
  | .ok r =>
    match scanNote r with
    | .error msg => .error (.other msg)
    | .ok res => .ok res

/-- The gateway `GetNoteByID`. -/
def GetNoteByID (f : Fault) (st : Store) (id : UUID) : Except String Note :=
  match scanRowByID f st id with
  | .error .ErrNoRows => .error "note not found"
  | .error (.other msg) => .error ("failed to get note: " ++ msg)
  | .ok (note, metadataJSON) =>
    match unmarshalMetadata metadataJSON with
    | .error msg => .error ("failed to unmarshal metadata: " ++ msg)
    | .ok md => .ok { note with Metadata := md }

/-- Body of the loop of `GetAllNotes`: scan one row, unmarshal its metadata. -/
def listBody (r : Row) : Except String Note :=
  match scanNote r with
  | .error msg => .error ("failed to scan row: " ++ msg)
  | .ok (note, metadataJSON) =>
    match unmarshalMetadata metadataJSON with
    | .error msg => .error ("failed to unmarshal metadata: " ++ msg)
    | .ok md => .ok { note with Metadata := md }

/-- The loop `for rows.Next()` of `GetAllNotes` followed by the check of `rows.Err()`;
`notes` is the slice built so far. -/
def listLoop (err : Option String) : List Row → List Note → Except String (List Note)
  | [], notes =>
    match err with
    | some msg => .error ("error iterating rows: " ++ msg)
    | Option.none => .ok notes
  | r :: rest, notes =>
    match listBody r with
    | .error msg => .error msg
    | .ok note => listLoop err rest (notes ++ [note])

/-- The gateway `GetAllNotes`. -/
def GetAllNotes (f : Fault) (st : Store) (limit offset : Int) : Except String (List Note) :=
  match queryAllNotes f st limit offset with
  | .error msg => .error ("failed to get notes: " ++ msg)
  | .ok rows => listLoop rows.err rows.rows []

/-- The gateway `DeleteNote`: the error (`none` is nil) and the table. -/
def DeleteNote (f : Fault) (st : Store) (id : UUID) : Option String × Store :=
  match execDelete f st id with
  | (.error err, st1) => (some ("failed to delete note: " ++ err.Error), st1)
  | (.ok rowsAffected, st1) =>
    if rowsAffected = 0 then (some "note not found", st1) else (Option.none, st1)

/-- The gateway `HealthCheck`. -/
def HealthCheck (f : Fault) : Option String :=
  ping f

end DB

/-! ## Request handlers (`handlers/notes.go`, `handlers/health.go`) -/

/-- A value of a `gin.H` response body. -/
inductive BodyValue where
  | str (s : String)
  | int (n : Int)
  | notes (ns : List Note)
  | note (n : Note)

/-- What `c.JSON(code, gin.H{...})` sends. -/
structure Response where
  status : Nat
  body : List (String × BodyValue)

/-- A call on the gateway, with its arguments. -/
inductive GatewayCall where
  | HealthCheck
  | GetAllNotes (limit offset : Int)
  | GetNoteByID (id : UUID)
  | DeleteNote (id : UUID)
  deriving DecidableEq

/-- One run of a handler: the response, the gateway calls it made and the table
afterwards. -/
structure HandlerRun where
  response : Response
  calls : List GatewayCall
  store : Store

/-- The method `c.DefaultQuery(key, defaultValue)`; `none` is an absent key. -/
def DefaultQuery (value : Option String) (defaultValue : String) : String :=
  match value with
  | some v => v
  | Option.none => defaultValue

namespace NotesHandler

/-- The handler `GetAllNotes`; the arguments `limitQ`, `offsetQ` are the query
parameters `limit` and `offset`. -/
def GetAllNotes (f : Fault) (st : Store) (limitQ offsetQ : Option String) : HandlerRun :=
  let limitStr := DefaultQuery limitQ "20"
  let offsetStr := DefaultQuery offsetQ "0"
  let limit : Int :=
    match Atoi limitStr with
    | Option.none => 20
    | some limit => if limit ≤ 0 then 20 else limit
  let offset : Int :=
    match Atoi offsetStr with
    | Option.none => 0
    | some offset => if offset < 0 then 0 else offset
  match DB.GetAllNotes f st limit offset with
  | .error _ =>
    { response := ⟨500, [("error", .str "Failed to retrieve notes")]⟩,
      calls := [.GetAllNotes limit offset], store := st }
  | .ok notes =>
    { response := ⟨200, [("notes", .notes notes), ("limit", .int limit),
        ("offset", .int offset), ("count", .int notes.length)]⟩,
      calls := [.GetAllNotes limit offset], store := st }

/-- The handler `GetNoteByID`; `parse` is `uuid.Parse` (`none` is `err != nil`) and
`idStr` the path parameter `id`. -/
def GetNoteByID (parse : String → Option UUID) (f : Fault) (st : Store) (idStr : String) :
    HandlerRun :=
  match parse idStr with
  | Option.none =>
    { response := ⟨400, [("error", .str "Invalid note ID")]⟩, calls := [], store := st }
  | some id =>
    match DB.GetNoteByID f st id with
    | .error _ =>
      { response := ⟨404, [("error", .str "Note not found")]⟩,
        calls := [.GetNoteByID id], store := st }
    | .ok note =>
      { response := ⟨200, [("note", .note note)]⟩, calls := [.GetNoteByID id], store := st }

/-- The handler `DeleteNote`. -/
def DeleteNote (parse : String → Option UUID) (f : Fault) (st : Store) (idStr : String) :
    HandlerRun :=
  match parse idStr with
  | Option.none =>
    { response := ⟨400, [("error", .str "Invalid note ID")]⟩, calls := [], store := st }
  | some id =>
    match DB.DeleteNote f st id with
    | (some _, st1) =>
      { response := ⟨404, [("error", .str "Note not found")]⟩,
        calls := [.DeleteNote id], store := st1 }
    | (Option.none, st1) =>
      { response := ⟨200, [("message", .str "Note deleted successfully")]⟩,
        calls := [.DeleteNote id], store := st1 }

end NotesHandler

namespace HealthHandler

/-- The handler `HealthCheck`. -/
def HealthCheck (f : Fault) (st : Store) : HandlerRun :=
  match DB.HealthCheck f with
  | some err =>
    { response := ⟨503, [("status", .str "unhealthy"), ("database", .str "disconnected"),
        ("error", .str err)]⟩,
      calls := [.HealthCheck], store := st }
  | Option.none =>
    { response := ⟨200, [("status", .str "healthy"), ("database", .str "connected"),
        ("service", .str "supernote-ai-backend"), ("version", .str "1.0.0")]⟩,
      calls := [.HealthCheck], store := st }

end HealthHandler

/-! ## Reference forms used in the statements -/

mutual
/-- What a Go value looks like once it went through JSON: a Go integer `n` is
`float64(n)`, a nil slice and a nil map are the untyped nil, a value of another type
is the JSON form of the basic value with the same text; a bool, a `float64`, a string,
a non-nil `[]interface{}` and a non-nil `map[string]interface{}` keep their type, the
last two with their elements in JSON form. -/
def jsonForm : GoValue → GoValue
  | .null => .null
  | .bool b => .bool b
  | .int n => .float64 (float64OfInt n)
  | .float64 x => .float64 x
  | .str s => .str s
  | .slice xs => .slice (jsonFormList xs)
  | .nilSlice => .null
  | .map kvs => .map (jsonFormFields kvs)
  | .nilMap => .null
  | .typed v => jsonForm v
  | .unsupported => .unsupported
/-- Elements of a slice, each in its JSON form. -/
def jsonFormList : List GoValue → List GoValue
  | [] => []
  | v :: vs => jsonForm v :: jsonFormList vs
/-- Members of a map, each value in its JSON form. -/
def jsonFormFields : List (String × GoValue) → List (String × GoValue)
  | [] => []
  | (k, v) :: kvs => (k, jsonForm v) :: jsonFormFields kvs
end

mutual
/-- The value is of a kind the decoder produces: the untyped nil, a bool, a `float64`, a
string, a non-nil `[]interface{}` or a non-nil `map[string]interface{}` of such
values. -/
def decoderKind : GoValue → Bool
  | .null => true
  | .bool _ => true
  | .float64 _ => true
  | .str _ => true
  | .slice xs => decoderKindList xs
  | .map kvs => decoderKindFields kvs
  | _ => false
/-- Every element of the slice is of a kind the decoder produces. -/
def decoderKindList : List GoValue → Bool
  | [] => true
  | v :: vs => decoderKind v && decoderKindList vs
/-- Every value of the map is of a kind the decoder produces. -/
def decoderKindFields : List (String × GoValue) → Bool
  | [] => true
  | (_, v) :: kvs => decoderKind v && decoderKindFields kvs
end

/-- Metadata serialised as `InsertNote` does and deserialised as `GetNoteByID`,
`GetAllNotes` and `SearchNotesBySimilarity` do. -/
def metadataRoundTrip (m : Metadata) : Except String Metadata :=
  match marshalMetadata m with
  | Option.none => .error "json: unsupported value"
  | some j => unmarshalMetadata (some j)

/-- A hexadecimal digit, in either case. -/
def isHexDigit (b : Nat) : Bool :=
  (decide (48 ≤ b) && decide (b ≤ 57)) || (decide (97 ≤ b) && decide (b ≤ 102)) ||
    (decide (65 ≤ b) && decide (b ≤ 70))

/-- The bytes at positions `start` to `start + n - 1` are hexadecimal digits. -/
def hexRun (s : List Nat) (start n : Nat) : Bool :=
  (List.range n).all fun i => isHexDigit (s.getD (start + i) 0)

/-- The first 36 bytes read `xxxxxxxx-xxxx-xxxx-xxxx-xxxxxxxxxxxx`: groups of 8, 4, 4, 4
and 12 hexadecimal digits with a hyphen between them. -/
def hyphenated (s : List Nat) : Bool :=
  hexRun s 0 8 && s.getD 8 0 == 45 && hexRun s 9 4 && s.getD 13 0 == 45 &&
    hexRun s 14 4 && s.getD 18 0 == 45 && hexRun s 19 4 && s.getD 23 0 == 45 &&
    hexRun s 24 12

/-- A well-formed UUID in one of its textual layouts: 36 bytes hyphenated; the same
after the prefix `urn:uuid:` in any case; the same between an opening and a closing
brace; or 32 hexadecimal digits. -/
def wellFormedUUID (str : String) : Bool :=
  let s := bytes str
  (s.length == 36 && hyphenated s) ||
  (s.length == 45 && (s.take 9).map lowerByte == bytes "urn:uuid:" &&
    hyphenated (s.drop 9)) ||
  (s.length == 38 && s.getD 0 0 == 123 && s.getD 37 0 == 125 && hyphenated (s.drop 1)) ||
  (s.length == 32 && hexRun s 0 32)

/-- The strings the identifier parser lets through: the well-formed layouts, the
38-byte one with any byte, not only a brace, at each end. -/
def acceptedLayout (str : String) : Bool :=
  let s := bytes str
  (s.length == 36 && hyphenated s) ||
  (s.length == 45 && (s.take 9).map lowerByte == bytes "urn:uuid:" &&
    hyphenated (s.drop 9)) ||
  (s.length == 38 && hyphenated (s.drop 1)) ||
  (s.length == 32 && hexRun s 0 32)

/-- A stored note used in the examples. -/
def sampleRow : Row :=
  { id := [0, 0, 0, 0, 0, 0, 64, 0, 128, 0, 0, 0, 0, 0, 0, 1], user_id := Option.none,
    title := some "t", content := some "c", chunk_content := some "",
    embedding := Option.none, metadata := some JSON.null, created_at := some 5,
    updated_at := some 5 }

/-- A note as a caller hands it to `InsertNote`: no identifier, an embedding of one
component (the `float32` 1.0), nil metadata, no timestamp. -/
def sampleNote : Note :=
  { ID := uuidNil, UserID := Option.none, Title := "t", Content := "c", ChunkContent := "",
    Embedding := [⟨0x3F800000⟩], Metadata := Option.none, CreatedAt := zeroTime,
    UpdatedAt := zeroTime }

/-- A stored note with the given last identifier byte, creation instant and
embedding. -/
def noteRow (n : Nat) (t : Time) (e : Option (List Float32)) : Row :=
  { id := List.replicate 15 0 ++ [n], user_id := Option.none, title := some "t",
    content := some "c", chunk_content := some "", embedding := e,
    metadata := some (JSON.obj [("k", JSON.num (JNumber.int 1))]), created_at := some t,
    updated_at := some t }

/-- Five notes, inserted at the instants 10 to 50. -/
def fiveNotes : Store :=
  [noteRow 1 10 Option.none, noteRow 2 20 Option.none, noteRow 3 30 Option.none,
   noteRow 4 40 Option.none, noteRow 5 50 Option.none]

/-- A distance operator for the examples: the first component of the stored vector. -/
def sampleDist (e _q : List Float32) : Float32 :=
  e.headD ⟨0⟩

/-- Three notes with the one-component embeddings 2.0, 1.0 and 3.0. -/
def threeVectors : Store :=
  [noteRow 1 10 (some [⟨0x40000000⟩]), noteRow 2 20 (some [⟨0x3F800000⟩]),
   noteRow 3 30 (some [⟨0x40400000⟩])]

/-! ## Theorems -/

mutual
/-- Decoding what the encoder wrote succeeds and gives the JSON form of the value. -/
theorem unmarshal_marshalValue : ∀ (v : GoValue) (j : JSON),
    marshalValue v = some j → unmarshalValue j = some (jsonForm v)
  | .null, j, h => by
    simp only [marshalValue, Option.some.injEq] at h; subst h; rfl
  | .bool b, j, h => by
    simp only [marshalValue, Option.some.injEq] at h; subst h; rfl
  | .int n, j, h => by
    simp only [marshalValue] at h
    split at h
    · next hn =>
      simp only [Option.some.injEq] at h
      subst h
      have hb : n.natAbs < float64Overflow := by
        have : n.natAbs < 2 ^ 64 + 1 := by omega
        exact lt_trans this (by unfold float64Overflow; norm_num)
      simp only [unmarshalValue, hb, if_true, jsonForm]
    · cases h
  | .float64 x, j, h => by
    simp only [marshalValue] at h
    split at h
    · next hx =>
      simp only [Option.some.injEq] at h
      subst h
      simp only [unmarshalValue, hx, if_true, jsonForm]
    · cases h
  | .str s, j, h => by
    simp only [marshalValue, Option.some.injEq] at h; subst h; rfl
  | .slice xs, j, h => by
    simp only [marshalValue, Option.map_eq_some'] at h
    obtain ⟨js, hjs, rfl⟩ := h
    simp only [unmarshalValue, jsonForm, unmarshal_marshalList xs js hjs, Option.map_some']
  | .nilSlice, j, h => by
    simp only [marshalValue, Option.some.injEq] at h; subst h; rfl
  | .map kvs, j, h => by
    simp only [marshalValue, Option.map_eq_some'] at h
    obtain ⟨js, hjs, rfl⟩ := h
    simp only [unmarshalValue, jsonForm, unmarshal_marshalFields kvs js hjs, Option.map_some']
  | .nilMap, j, h => by
    simp only [marshalValue, Option.some.injEq] at h; subst h; rfl
  | .typed v, j, h => by
    simp only [marshalValue] at h
    simp only [jsonForm, unmarshal_marshalValue v j h]
  | .unsupported, j, h => by
    simp [marshalValue] at h
/-- The same for the elements of a slice. -/
theorem unmarshal_marshalList : ∀ (vs : List GoValue) (js : List JSON),
    marshalList vs = some js → unmarshalList js = some (jsonFormList vs)
  | [], js, h => by
    simp only [marshalList, Option.some.injEq] at h; subst h; rfl
  | v :: vs, js, h => by
    unfold marshalList at h
    cases hv : marshalValue v with
    | none => simp [hv] at h
    | some j =>
      cases hvs : marshalList vs with
      | none => simp [hv, hvs] at h
      | some js1 =>
        simp only [hv, hvs, Option.some.injEq] at h
        subst h
        simp only [unmarshalList, jsonFormList, unmarshal_marshalValue v j hv,
          unmarshal_marshalList vs js1 hvs]
/-- The same for the members of a map. -/
theorem unmarshal_marshalFields : ∀ (kvs : List (String × GoValue)) (js : List (String × JSON)),
    marshalFields kvs = some js → unmarshalFields js = some (jsonFormFields kvs)
  | [], js, h => by
    simp only [marshalFields, Option.some.injEq] at h; subst h; rfl
  | (k, v) :: kvs, js, h => by
    unfold marshalFields at h
    cases hv : marshalValue v with
    | none => simp [hv] at h
    | some j =>
      cases hvs : marshalFields kvs with
      | none => simp [hv, hvs] at h
      | some js1 =>
        simp only [hv, hvs, Option.some.injEq] at h
        subst h
        simp only [unmarshalFields, jsonFormFields, unmarshal_marshalValue v j hv,
          unmarshal_marshalFields kvs js1 hvs]
end

mutual
/-- A value of a kind the decoder produces is its own JSON form. -/
theorem jsonForm_decoderKind : ∀ (v : GoValue), decoderKind v = true → jsonForm v = v
  | .null, _ => rfl
  | .bool _, _ => rfl
  | .int n, h => by simp [decoderKind] at h
  | .float64 _, _ => rfl
  | .str _, _ => rfl
  | .slice xs, h => by
    simp only [decoderKind] at h
    simp only [jsonForm, jsonFormList_decoderKind xs h]
  | .nilSlice, h => by simp [decoderKind] at h
  | .map kvs, h => by
    simp only [decoderKind] at h
    simp only [jsonForm, jsonFormFields_decoderKind kvs h]
  | .nilMap, h => by simp [decoderKind] at h
  | .typed _, h => by simp [decoderKind] at h
  | .unsupported, h => by simp [decoderKind] at h
/-- The same for a slice. -/
theorem jsonFormList_decoderKind : ∀ (vs : List GoValue),
    decoderKindList vs = true → jsonFormList vs = vs
  | [], _ => rfl
  | v :: vs, h => by
    simp only [decoderKindList, Bool.and_eq_true] at h
    simp only [jsonFormList, jsonForm_decoderKind v h.1, jsonFormList_decoderKind vs h.2]
/-- The same for a map. -/
theorem jsonFormFields_decoderKind : ∀ (kvs : List (String × GoValue)),
    decoderKindFields kvs = true → jsonFormFields kvs = kvs
  | [], _ => rfl
  | (k, v) :: kvs, h => by
    simp only [decoderKindFields, Bool.and_eq_true] at h
    simp only [jsonFormFields, jsonForm_decoderKind v h.1, jsonFormFields_decoderKind kvs h.2]
end

mutual
/-- The JSON form of a value the encoder accepts is of a kind the decoder produces. -/
theorem decoderKind_jsonForm : ∀ (v : GoValue) (j : JSON),
    marshalValue v = some j → decoderKind (jsonForm v) = true
  | .null, _, _ => rfl
  | .bool _, _, _ => rfl
  | .int _, _, _ => rfl
  | .float64 _, _, _ => rfl
  | .str _, _, _ => rfl
  | .slice xs, j, h => by
    simp only [marshalValue, Option.map_eq_some'] at h
    obtain ⟨js, hjs, rfl⟩ := h
    simp only [jsonForm, decoderKind, decoderKindList_jsonForm xs js hjs]
  | .nilSlice, _, _ => rfl
  | .map kvs, j, h => by
    simp only [marshalValue, Option.map_eq_some'] at h
    obtain ⟨js, hjs, rfl⟩ := h
    simp only [jsonForm, decoderKind, decoderKindFields_jsonForm kvs js hjs]
  | .nilMap, _, _ => rfl
  | .typed v, j, h => by
    simp only [marshalValue] at h
    simp only [jsonForm, decoderKind_jsonForm v j h]
  | .unsupported, j, h => by simp [marshalValue] at h
/-- The same for a slice. -/
theorem decoderKindList_jsonForm : ∀ (vs : List GoValue) (js : List JSON),
    marshalList vs = some js → decoderKindList (jsonFormList vs) = true
  | [], _, _ => rfl
  | v :: vs, js, h => by
    unfold marshalList at h
    cases hv : marshalValue v with
    | none => simp [hv] at h
    | some j =>
      cases hvs : marshalList vs with
      | none => simp [hv, hvs] at h
      | some js1 =>
        simp only [jsonFormList, decoderKindList, decoderKind_jsonForm v j hv,
          decoderKindList_jsonForm vs js1 hvs, Bool.and_self]
/-- The same for a map. -/
theorem decoderKindFields_jsonForm : ∀ (kvs : List (String × GoValue))
    (js : List (String × JSON)),
    marshalFields kvs = some js → decoderKindFields (jsonFormFields kvs) = true
  | [], _, _ => rfl
  | (k, v) :: kvs, js, h => by
    unfold marshalFields at h
    cases hv : marshalValue v with
    | none => simp [hv] at h
    | some j =>
      cases hvs : marshalFields kvs with
      | none => simp [hv, hvs] at h
      | some js1 =>
        simp only [jsonFormFields, decoderKindFields, decoderKind_jsonForm v j hv,
          decoderKindFields_jsonForm kvs js1 hvs, Bool.and_self]
end

/-- The JSON form keeps the keys, in order. -/
theorem jsonFormFields_keys (kvs : List (String × GoValue)) :
    (jsonFormFields kvs).map Prod.fst = kvs.map Prod.fst := by
  induction kvs with
  | nil => rfl
  | cons kv kvs ih =>
    obtain ⟨k, v⟩ := kv
    simp [jsonFormFields, ih]

/-- Looking a key up in the JSON form. -/
theorem jsonFormFields_lookup (kvs : List (String × GoValue)) (k : String) :
    (jsonFormFields kvs).lookup k = (kvs.lookup k).map jsonForm := by
  induction kvs with
  | nil => rfl
  | cons kv kvs ih =>
    obtain ⟨k1, v⟩ := kv
    simp only [jsonFormFields, List.lookup]
    cases h : (k == k1) <;> simp [ih]

/-- Deserialising serialised metadata gives its JSON form. -/
theorem unmarshal_marshalMetadata (m : Metadata) (j : JSON) (h : marshalMetadata m = some j) :
    unmarshalMetadata (some j) = .ok (m.map jsonFormFields) := by
  cases m with
  | none =>
    simp only [marshalMetadata, Option.some.injEq] at h
    subst h
    rfl
  | some kvs =>
    simp only [marshalMetadata, Option.map_eq_some'] at h
    obtain ⟨js, hjs, rfl⟩ := h
    simp only [unmarshalMetadata, Option.map_some', unmarshal_marshalFields kvs js hjs]

/-- The overflow bound written out is `2 ^ 1024 - 2 ^ 970`. -/
theorem float64Overflow_eq : float64Overflow = 2 ^ 1024 - 2 ^ 970 := by
  unfold float64Overflow
  norm_num

/-- The default limit parses. -/
theorem Atoi_twenty : Atoi "20" = some 20 := by decide
/-- The default offset parses. -/
theorem Atoi_zero : Atoi "0" = some 0 := by decide

/-- The limit the list handler settles on. -/
theorem handler_limit_cases (limitQ : Option String) :
    (match Atoi (DefaultQuery limitQ "20") with
      | Option.none => (20 : Int)
      | some limit => if limit ≤ 0 then 20 else limit)
    = (match limitQ.bind Atoi with
      | some n => if 0 < n then n else 20
      | Option.none => 20) := by
  cases limitQ with
  | none => simp [DefaultQuery, Atoi_twenty]
  | some s =>
    simp only [DefaultQuery, Option.bind]
    cases Atoi s with
    | none => rfl
    | some n =>
      by_cases h : 0 < n
      · simp [h, not_le.mpr h]
      · simp [h, not_lt.mp h]

/-- The offset the list handler settles on. -/
theorem handler_offset_cases (offsetQ : Option String) :
    (match Atoi (DefaultQuery offsetQ "0") with
      | Option.none => (0 : Int)
      | some offset => if offset < 0 then 0 else offset)
    = (match offsetQ.bind Atoi with
      | some n => if 0 ≤ n then n else 0
      | Option.none => 0) := by
  cases offsetQ with
  | none => simp [DefaultQuery, Atoi_zero]
  | some s =>
    simp only [DefaultQuery, Option.bind]
    cases Atoi s with
    | none => rfl
    | some n =>
      by_cases h : 0 ≤ n
      · simp [h, not_lt.mpr h]
      · simp [h, not_le.mp h]

/-- C1: the list handler calls the gateway once, with the limit equal to the parsed
query value when it parses and is positive and 20 otherwise, and the offset equal to
the parsed value when it parses and is not negative and 0 otherwise; a successful
response echoes both; so the gateway always gets a limit of at least 1 and an offset
of at least 0. -/
theorem C1_pagination_defaults (f : Fault) (st : Store) (limitQ offsetQ : Option String) :
    let limit : Int :=
      match limitQ.bind Atoi with
      | some n => if 0 < n then n else 20
      | Option.none => 20
    let offset : Int :=
      match offsetQ.bind Atoi with
      | some n => if 0 ≤ n then n else 0
      | Option.none => 0
    let run := NotesHandler.GetAllNotes f st limitQ offsetQ
    run.calls = [GatewayCall.GetAllNotes limit offset] ∧
    (∀ notes, DB.GetAllNotes f st limit offset = .ok notes →
      run.response.status = 200 ∧
      run.response.body = [("notes", .notes notes), ("limit", .int limit),
        ("offset", .int offset), ("count", .int notes.length)]) ∧
    1 ≤ limit ∧ 0 ≤ offset := by
  intro limit offset run
  have hl := handler_limit_cases limitQ
  have ho := handler_offset_cases offsetQ
  refine ⟨?_, ?_, ?_, ?_⟩
  · show (NotesHandler.GetAllNotes f st limitQ offsetQ).calls = _
    unfold NotesHandler.GetAllNotes
    simp only [hl, ho]
    split <;> rfl
  · intro notes hn
    show (NotesHandler.GetAllNotes f st limitQ offsetQ).response.status = 200 ∧
      (NotesHandler.GetAllNotes f st limitQ offsetQ).response.body = _
    unfold NotesHandler.GetAllNotes
    simp only [hl, ho]
    have hn' : DB.GetAllNotes f st limit offset = .ok notes := hn
    simp only [limit, offset] at hn'
    rw [hn']
    exact ⟨rfl, rfl⟩
  · show (1 : Int) ≤ (match limitQ.bind Atoi with
      | some n => if 0 < n then n else 20
      | Option.none => (20 : Int))
    split
    · split <;> omega
    · omega
  · show (0 : Int) ≤ (match offsetQ.bind Atoi with
      | some n => if 0 ≤ n then n else 0
      | Option.none => (0 : Int))
    split
    · split <;> omega
    · omega

/-- A byte has a hexadecimal value exactly when it is a hexadecimal digit. -/
theorem xvalue_isSome (b : Nat) : (xvalue b).isSome = isHexDigit b := by
  unfold xvalue isHexDigit
  by_cases h1 : 48 ≤ b ∧ b ≤ 57
  · simp [h1]
  · by_cases h2 : 97 ≤ b ∧ b ≤ 102
    · simp [h1, h2]
    · by_cases h3 : 65 ≤ b ∧ b ≤ 70
      · simp [h1, h2, h3]
      · simp only [h1, h2, h3, if_false, Option.isSome_none]
        symm
        simp only [Bool.or_eq_false_iff, Bool.and_eq_false_iff, decide_eq_false_iff_not]
        omega

/-- Two digits give a byte exactly when both are hexadecimal. -/
theorem xtob_isSome (a b : Nat) : (xtob a b).isSome = (isHexDigit a && isHexDigit b) := by
  rw [← xvalue_isSome, ← xvalue_isSome]
  unfold xtob
  cases xvalue a <;> cases xvalue b <;> rfl

/-- The pairs read at the given offsets are all hexadecimal. -/
theorem hexAt_isSome (s : List Nat) (xs : List Nat) :
    (hexAt s xs).isSome
      = xs.all (fun x => isHexDigit (s.getD x 0) && isHexDigit (s.getD (x + 1) 0)) := by
  induction xs with
  | nil => rfl
  | cons x xs ih =>
    rw [List.all_cons, ← ih, ← xtob_isSome]
    have step : hexAt s (x :: xs)
        = match xtob (s.getD x 0) (s.getD (x + 1) 0), hexAt s xs with
          | some v, some vs => some (v :: vs)
          | _, _ => Option.none := rfl
    rw [step]
    generalize hexAt s xs = r
    generalize xtob (s.getD x 0) (s.getD (x + 1) 0) = t
    cases t <;> cases r <;> rfl

/-- The hyphenated parse succeeds exactly on the hyphenated layout. -/
theorem parseHyphenated_isSome (s : List Nat) : (parseHyphenated s).isSome = hyphenated s := by
  unfold parseHyphenated hyphenated hexRun
  by_cases h : s.getD 8 0 ≠ 45 ∨ s.getD 13 0 ≠ 45 ∨ s.getD 18 0 ≠ 45 ∨ s.getD 23 0 ≠ 45
  · rw [if_pos h]
    symm
    simp only [Option.isSome_none, Bool.and_eq_false_iff, beq_eq_false_iff_ne]
    tauto
  · rw [if_neg h, hexAt_isSome]
    simp only [not_or, not_not] at h
    obtain ⟨h8, h13, h18, h23⟩ := h
    simp only [List.getD_eq_getElem?_getD] at h8 h13 h18 h23
    simp [h8, h13, h18, h23, List.range_succ, Bool.and_assoc]
/-- The identifier parser succeeds exactly on the layouts it lets through. -/
theorem uuidParse_isSome (str : String) : (uuidParse str).isSome = acceptedLayout str := by
  unfold uuidParse acceptedLayout
  simp only
  by_cases h36 : (bytes str).length = 36
  · simp [h36, parseHyphenated_isSome]
  by_cases h45 : (bytes str).length = 45
  · by_cases hp : (List.take 9 (bytes str)).map lowerByte = bytes "urn:uuid:"
    · simp [h45, hp, parseHyphenated_isSome, -List.map_take]
    · simp [h45, hp, -List.map_take]
  by_cases h38 : (bytes str).length = 38
  · simp [h38, parseHyphenated_isSome]
  by_cases h32 : (bytes str).length = 32
  · simp [h32, hexAt_isSome, hexRun, List.range_succ, Bool.and_assoc]
  · simp [h36, h45, h38, h32]

/-- C2 fails on a 38-byte string whose ends are not braces: it is not a well-formed
UUID, yet the get handler calls the gateway and the delete handler answers 200 after
deleting the note whose identifier stands between the two end bytes. -/
theorem C2_enclosed_id_reaches_store :
    wellFormedUUID "x00000000-0000-4000-8000-000000000001y" = false ∧
    (NotesHandler.GetNoteByID uuidParse Fault.none [sampleRow]
      "x00000000-0000-4000-8000-000000000001y").response.status = 200 ∧
    (NotesHandler.GetNoteByID uuidParse Fault.none [sampleRow]
      "x00000000-0000-4000-8000-000000000001y").calls = [GatewayCall.GetNoteByID sampleRow.id] ∧
    (NotesHandler.DeleteNote uuidParse Fault.none [sampleRow]
      "x00000000-0000-4000-8000-000000000001y").response.status = 200 ∧
    (NotesHandler.DeleteNote uuidParse Fault.none [sampleRow]
      "x00000000-0000-4000-8000-000000000001y").calls = [GatewayCall.DeleteNote sampleRow.id] ∧
    (NotesHandler.DeleteNote uuidParse Fault.none [sampleRow]
      "x00000000-0000-4000-8000-000000000001y").store = [] := by
  refine ⟨by decide, by rfl, by rfl, by rfl, by rfl, by rfl⟩

/-- C2 as amended: a path identifier outside the layouts the parser lets through (36
bytes hyphenated, the same after `urn:uuid:`, the same with one byte of any value at
each end, 32 hexadecimal digits) makes the get and the delete handler answer 400
with the fixed body, call the gateway not at all and leave the table as it was; every
other identifier reaches the gateway, once. -/
theorem C2_invalid_id_rejected (f : Fault) (st : Store) (idStr : String) :
    (acceptedLayout idStr = false →
      (NotesHandler.GetNoteByID uuidParse f st idStr).response
        = ⟨400, [("error", .str "Invalid note ID")]⟩ ∧
      (NotesHandler.GetNoteByID uuidParse f st idStr).calls = [] ∧
      (NotesHandler.GetNoteByID uuidParse f st idStr).store = st ∧
      (NotesHandler.DeleteNote uuidParse f st idStr).response
        = ⟨400, [("error", .str "Invalid note ID")]⟩ ∧
      (NotesHandler.DeleteNote uuidParse f st idStr).calls = [] ∧
      (NotesHandler.DeleteNote uuidParse f st idStr).store = st) ∧
    (acceptedLayout idStr = true →
      ∃ id, uuidParse idStr = some id ∧
        (NotesHandler.GetNoteByID uuidParse f st idStr).calls = [GatewayCall.GetNoteByID id] ∧
        (NotesHandler.DeleteNote uuidParse f st idStr).calls = [GatewayCall.DeleteNote id]) := by
  have hs := uuidParse_isSome idStr
  constructor
  · intro h
    rw [h] at hs
    have hnone : uuidParse idStr = Option.none := by
      cases hp : uuidParse idStr with
      | none => rfl
      | some id => rw [hp] at hs; cases hs
    simp [NotesHandler.GetNoteByID, NotesHandler.DeleteNote, hnone]
  · intro h
    rw [h] at hs
    cases hp : uuidParse idStr with
    | none => rw [hp] at hs; cases hs
    | some id =>
      refine ⟨id, rfl, ?_, ?_⟩
      · unfold NotesHandler.GetNoteByID
        simp only [hp]
        split <;> rfl
      · unfold NotesHandler.DeleteNote
        simp only [hp]
        split <;> rfl

/-- C2 at the identifier `not-a-uuid`, over a table of one note. -/
theorem C2_invalid_id_rejected_witness :
    acceptedLayout "not-a-uuid" = false ∧
    (NotesHandler.GetNoteByID uuidParse Fault.none [sampleRow] "not-a-uuid").response
      = ⟨400, [("error", .str "Invalid note ID")]⟩ ∧
    (NotesHandler.GetNoteByID uuidParse Fault.none [sampleRow] "not-a-uuid").calls = [] ∧
    (NotesHandler.GetNoteByID uuidParse Fault.none [sampleRow] "not-a-uuid").store = [sampleRow] ∧
    (NotesHandler.DeleteNote uuidParse Fault.none [sampleRow] "not-a-uuid").response
      = ⟨400, [("error", .str "Invalid note ID")]⟩ ∧
    (NotesHandler.DeleteNote uuidParse Fault.none [sampleRow] "not-a-uuid").calls = [] ∧
    (NotesHandler.DeleteNote uuidParse Fault.none [sampleRow] "not-a-uuid").store = [sampleRow] :=
  ⟨by decide, (C2_invalid_id_rejected Fault.none [sampleRow] "not-a-uuid").1 (by decide)⟩

/-- C3, what the code does: with a well-formed identifier and a pool call that fails
(connection refused), the gateway returns a read error, respectively a delete error,
that is not the not-found outcome, and both handlers still answer 404; the same 404
answers a stored note whose metadata does not deserialise. -/
theorem C3_store_failure_answered_404 :
    uuidParse "00000000-0000-4000-8000-000000000001" = some sampleRow.id ∧
    DB.GetNoteByID (Fault.call "connection refused") [sampleRow] sampleRow.id
      = .error "failed to get note: connection refused" ∧
    (NotesHandler.GetNoteByID uuidParse (Fault.call "connection refused") [sampleRow]
      "00000000-0000-4000-8000-000000000001").response.status = 404 ∧
    (DB.DeleteNote (Fault.call "connection refused") [sampleRow] sampleRow.id).1
      = some "failed to delete note: connection refused" ∧
    (NotesHandler.DeleteNote uuidParse (Fault.call "connection refused") [sampleRow]
      "00000000-0000-4000-8000-000000000001").response.status = 404 ∧
    DB.GetNoteByID Fault.none [{ sampleRow with metadata := Option.none }] sampleRow.id
      = .error "failed to unmarshal metadata: unexpected end of JSON input" ∧
    (NotesHandler.GetNoteByID uuidParse Fault.none [{ sampleRow with metadata := Option.none }]
      "00000000-0000-4000-8000-000000000001").response.status = 404 := by
  refine ⟨by decide, by rfl, by rfl, by rfl, by rfl, by rfl, by rfl⟩

/-- C4, what the code does: while the ping fails with a given error text the health
check answers 503 with that text in the field `error` of the body, so two runs that
differ only in the text of the store error give two different bodies; the list
handler, under the same two failures, gives one and the same fixed body. -/
theorem C4_health_body_carries_store_error :
    (HealthHandler.HealthCheck (Fault.call "dial tcp 10.0.0.5:5432: connection refused")
        [sampleRow]).response
      = ⟨503, [("status", .str "unhealthy"), ("database", .str "disconnected"),
          ("error", .str "dial tcp 10.0.0.5:5432: connection refused")]⟩ ∧
    (HealthHandler.HealthCheck (Fault.call "context deadline exceeded") [sampleRow]).response
      = ⟨503, [("status", .str "unhealthy"), ("database", .str "disconnected"),
          ("error", .str "context deadline exceeded")]⟩ ∧
    (HealthHandler.HealthCheck (Fault.call "dial tcp 10.0.0.5:5432: connection refused")
        [sampleRow]).response.body
      ≠ (HealthHandler.HealthCheck (Fault.call "context deadline exceeded")
        [sampleRow]).response.body ∧
    (NotesHandler.GetAllNotes (Fault.call "dial tcp 10.0.0.5:5432: connection refused")
        [sampleRow] Option.none Option.none).response
      = ⟨500, [("error", .str "Failed to retrieve notes")]⟩ ∧
    (NotesHandler.GetAllNotes (Fault.call "context deadline exceeded")
        [sampleRow] Option.none Option.none).response
      = ⟨500, [("error", .str "Failed to retrieve notes")]⟩ := by
  refine ⟨rfl, rfl, ?_, rfl, rfl⟩
  simp [HealthHandler.HealthCheck, DB.HealthCheck, ping]

/-- A generated identifier is never the nil identifier. -/
theorem uuidNew_ne_nil (rnd : List Nat) : uuidNew rnd ≠ uuidNil := by
  intro h
  have h8 := congrArg (fun l => l.getD 8 0) h
  simp [uuidNew, uuidNil, List.range, List.range.loop] at h8

/-- A timestamp the store wrote is never the zero value. -/
theorem assignTime_ne_zero (clock : Nat) (t : Time) : assignTime clock t ≠ zeroTime := by
  unfold assignTime
  split
  · intro h
    have h1 : (clock : Int) + 1 = 0 := h
    omega
  · assumption

/-- A row appended under a fresh identifier is the only row with that identifier. -/
theorem filter_append_new (st : Store) (row : Row)
    (h : st.any (fun r => r.id == row.id) = false) :
    (st ++ [row]).filter (fun r => r.id == row.id) = [row] := by
  have h1 : st.filter (fun r => r.id == row.id) = [] := by
    rw [List.filter_eq_nil_iff]
    intro r hr
    rw [List.any_eq_false] at h
    exact h r hr
  simp [List.filter_append, h1]

/-- C5 fails on the embedding and on integer metadata: a note inserted with an embedding
of one component is read back by its identifier with an empty embedding, and a note
inserted with the metadata `count: 1`, an `int`, is read back with `count` a
`float64`. -/
theorem C5_embedding_not_read_back :
    sampleNote.ID = uuidNil ∧
    (DB.InsertNote [] 0 Fault.none [] sampleNote).1 = Option.none ∧
    (DB.InsertNote [] 0 Fault.none [] sampleNote).2.1.Embedding = [⟨0x3F800000⟩] ∧
    (∃ got, DB.GetNoteByID Fault.none (DB.InsertNote [] 0 Fault.none [] sampleNote).2.2
        (DB.InsertNote [] 0 Fault.none [] sampleNote).2.1.ID = .ok got ∧
      got.Embedding = [] ∧
      got.Embedding ≠ (DB.InsertNote [] 0 Fault.none [] sampleNote).2.1.Embedding) ∧
    (DB.InsertNote [] 0 Fault.none []
      { sampleNote with Embedding := [], Metadata := some [("count", GoValue.int 1)] }).1
        = Option.none ∧
    (∃ got, DB.GetNoteByID Fault.none
        (DB.InsertNote [] 0 Fault.none []
          { sampleNote with Embedding := [], Metadata := some [("count", GoValue.int 1)] }).2.2
        (DB.InsertNote [] 0 Fault.none []
          { sampleNote with Embedding := [], Metadata := some [("count", GoValue.int 1)] }).2.1.ID
          = .ok got ∧
      got.Metadata = some [("count", GoValue.float64 ⟨0x3FF0000000000000⟩)] ∧
      got.Metadata ≠ (DB.InsertNote [] 0 Fault.none []
        { sampleNote with Embedding := [],
                          Metadata := some [("count", GoValue.int 1)] }).2.1.Metadata) := by
  refine ⟨rfl, rfl, rfl, ⟨_, rfl, rfl, by decide⟩, rfl, ⟨_, rfl, rfl, ?_⟩⟩
  intro h
  have h1 : (some [("count", GoValue.float64 ⟨0x3FF0000000000000⟩)] : Metadata)
      = some [("count", GoValue.int 1)] := h
  simp at h1

/-- The row `InsertNote` writes for a note. -/
theorem InsertNote_ok_form (rnd : List Nat) (clock : Nat) (f : Fault) (st : Store)
    (note : Note) (hid : note.ID = uuidNil)
    (hok : (DB.InsertNote rnd clock f st note).1 = Option.none) :
    ∃ j, marshalMetadata note.Metadata = some j ∧
      st.any (fun r => r.id == uuidNew rnd) = false ∧
      DB.InsertNote rnd clock f st note =
        (Option.none,
          { note with ID := uuidNew rnd, CreatedAt := assignTime clock note.CreatedAt,
                      UpdatedAt := assignTime clock note.UpdatedAt },
          st ++ [{ id := uuidNew rnd, user_id := note.UserID, title := some note.Title,
                   content := some note.Content, chunk_content := some note.ChunkContent,
                   embedding := if note.Embedding = [] then Option.none
                     else some note.Embedding,
                   metadata := some j,
                   created_at := some (assignTime clock note.CreatedAt),
                   updated_at := some (assignTime clock note.UpdatedAt) }]) := by
  cases hm : marshalMetadata note.Metadata with
  | none => simp [DB.InsertNote, hm] at hok
  | some j =>
    refine ⟨j, rfl, ?_⟩
    cases f with
    | call msg => simp [DB.InsertNote, hm, execInsert] at hok
    | stream k msg => simp [DB.InsertNote, hm, execInsert] at hok
    | none =>
      cases hany : st.any (fun r => r.id == uuidNew rnd) with
      | true =>
        simp [DB.InsertNote, hm, execInsert, hid, hany] at hok
      | false =>
        refine ⟨rfl, ?_⟩
        simp [DB.InsertNote, hm, execInsert, hid, hany]

/-- C5 as amended: a successful `InsertNote` of a note without identifier leaves it with
a generated, non-nil identifier and with populated timestamps, those of the stored
row; `GetNoteByID` on that identifier then succeeds and returns a note equal to the
inserted note in every field but the embedding, which comes back empty, and the
metadata, which comes back in JSON form; so the two notes are equal in every field
when the embedding inserted is empty and the metadata holds only values of the kinds
the decoder produces. -/
theorem C5_insert_then_get (rnd : List Nat) (clock : Nat) (f : Fault) (st : Store)
    (note : Note) (hid : note.ID = uuidNil)
    (hok : (DB.InsertNote rnd clock f st note).1 = Option.none) :
    (DB.InsertNote rnd clock f st note).2.1.ID = uuidNew rnd ∧
    (DB.InsertNote rnd clock f st note).2.1.ID ≠ uuidNil ∧
    (DB.InsertNote rnd clock f st note).2.1.CreatedAt ≠ zeroTime ∧
    (DB.InsertNote rnd clock f st note).2.1.UpdatedAt ≠ zeroTime ∧
    (∃ r ∈ (DB.InsertNote rnd clock f st note).2.2,
      r.id = (DB.InsertNote rnd clock f st note).2.1.ID ∧
      r.created_at = some (DB.InsertNote rnd clock f st note).2.1.CreatedAt ∧
      r.updated_at = some (DB.InsertNote rnd clock f st note).2.1.UpdatedAt) ∧
    (DB.InsertNote rnd clock f st note).2.1.UserID = note.UserID ∧
    (DB.InsertNote rnd clock f st note).2.1.Title = note.Title ∧
    (DB.InsertNote rnd clock f st note).2.1.Content = note.Content ∧
    (DB.InsertNote rnd clock f st note).2.1.ChunkContent = note.ChunkContent ∧
    (DB.InsertNote rnd clock f st note).2.1.Embedding = note.Embedding ∧
    (DB.InsertNote rnd clock f st note).2.1.Metadata = note.Metadata ∧
    DB.GetNoteByID Fault.none (DB.InsertNote rnd clock f st note).2.2
        (DB.InsertNote rnd clock f st note).2.1.ID
      = .ok { (DB.InsertNote rnd clock f st note).2.1 with
          Embedding := [], Metadata := note.Metadata.map jsonFormFields } ∧
    (note.Embedding = [] →
      (∀ kvs, note.Metadata = some kvs → decoderKindFields kvs = true) →
      DB.GetNoteByID Fault.none (DB.InsertNote rnd clock f st note).2.2
          (DB.InsertNote rnd clock f st note).2.1.ID
        = .ok (DB.InsertNote rnd clock f st note).2.1) := by
  obtain ⟨j, hj, hany, hres⟩ := InsertNote_ok_form rnd clock f st note hid hok
  rw [hres]
  have hget : DB.GetNoteByID Fault.none
      (st ++ [{ id := uuidNew rnd, user_id := note.UserID, title := some note.Title,
                content := some note.Content, chunk_content := some note.ChunkContent,
                embedding := if note.Embedding = [] then Option.none
                  else some note.Embedding,
                metadata := some j,
                created_at := some (assignTime clock note.CreatedAt),
                updated_at := some (assignTime clock note.UpdatedAt) }]) (uuidNew rnd)
      = .ok { note with ID := uuidNew rnd, Embedding := [],
                        Metadata := note.Metadata.map jsonFormFields,
                        CreatedAt := assignTime clock note.CreatedAt,
                        UpdatedAt := assignTime clock note.UpdatedAt } := by
    have hfil := filter_append_new st
      { id := uuidNew rnd, user_id := note.UserID, title := some note.Title,
        content := some note.Content, chunk_content := some note.ChunkContent,
        embedding := if note.Embedding = [] then Option.none else some note.Embedding,
        metadata := some j, created_at := some (assignTime clock note.CreatedAt),
        updated_at := some (assignTime clock note.UpdatedAt) } hany
    simp only [DB.GetNoteByID, DB.scanRowByID, queryRowByID, hfil, scanNote,
      unmarshal_marshalMetadata note.Metadata j hj]
  refine ⟨rfl, uuidNew_ne_nil rnd, assignTime_ne_zero _ _, assignTime_ne_zero _ _, ?_,
    rfl, rfl, rfl, rfl, rfl, rfl, hget, ?_⟩
  · exact ⟨_, List.mem_append_right _ (List.mem_singleton_self _), rfl, rfl, rfl⟩
  · intro hemb hkind
    simp only [hget]
    have hmeta : note.Metadata.map jsonFormFields = note.Metadata := by
      cases hm : note.Metadata with
      | none => rfl
      | some kvs => simp [jsonFormFields_decoderKind kvs (hkind kvs hm)]
    rw [hmeta, ← hemb]

/-- C5 on the sample note with its embedding removed, inserted into an empty table while
the store's clock reads 41: the timestamps come back as 42 and the note read equals
the note inserted. -/
theorem C5_insert_then_get_witness :
    ({ sampleNote with Embedding := [] } : Note).ID = uuidNil ∧
    (DB.InsertNote [] 41 Fault.none [] { sampleNote with Embedding := [] }).1 = Option.none ∧
    (DB.InsertNote [] 41 Fault.none [] { sampleNote with Embedding := [] }).2.1.CreatedAt = 42 ∧
    DB.GetNoteByID Fault.none
        (DB.InsertNote [] 41 Fault.none [] { sampleNote with Embedding := [] }).2.2
        (DB.InsertNote [] 41 Fault.none [] { sampleNote with Embedding := [] }).2.1.ID
      = .ok (DB.InsertNote [] 41 Fault.none [] { sampleNote with Embedding := [] }).2.1 :=
  ⟨rfl, rfl, rfl, (C5_insert_then_get [] 41 Fault.none [] { sampleNote with Embedding := [] } rfl
    rfl).2.2.2.2.2.2.2.2.2.2.2.2 rfl (by intro kvs h; cases h)⟩

/-- A message that starts with the letter f is not the not-found message. -/
theorem wrapped_ne_not_found (pre rest : String) (msg : String)
    (h : pre.data = 'f' :: rest.data) : pre ++ msg ≠ "note not found" := by
  intro heq
  have hd := congrArg String.data heq
  rw [String.data_append, h] at hd
  simp at hd

/-- Rows of the table with the given identifier. -/
theorem filter_id_eq_nil (st : Store) (id : UUID) (h : ∀ r ∈ st, r.id ≠ id) :
    st.filter (fun r => r.id == id) = [] := by
  rw [List.filter_eq_nil_iff]
  intro r hr
  simpa using h r hr

/-- No row with the identifier is left after the delete statement. -/
theorem filter_after_delete (st : Store) (id : UUID) :
    (st.filter (fun r => !(r.id == id))).filter (fun r => r.id == id) = [] := by
  rw [List.filter_eq_nil_iff]
  intro r hr
  have := (List.mem_filter.mp hr).2
  simpa using this

/-- C6: the delete gateway returns the not-found outcome exactly when the statement ran
without error and affected zero rows, and a delete error carrying the store's message
on every store failure; on a store that answers, deleting an identifier that is
present succeeds and removes its rows, and deleting it again returns not-found. -/
theorem C6_delete_outcomes (st : Store) (id : UUID) :
    (∀ f, (DB.DeleteNote f st id).1 = some "note not found" ↔
      ∃ st1, execDelete f st id = (.ok 0, st1)) ∧
    (∀ f err st1, execDelete f st id = (.error err, st1) →
      (DB.DeleteNote f st id).1 = some ("failed to delete note: " ++ err.Error) ∧
      (DB.DeleteNote f st id).1 ≠ some "note not found") ∧
    ((∃ r ∈ st, r.id = id) →
      (DB.DeleteNote Fault.none st id).1 = Option.none ∧
      (∀ r ∈ (DB.DeleteNote Fault.none st id).2, r.id ≠ id) ∧
      (DB.DeleteNote Fault.none (DB.DeleteNote Fault.none st id).2 id).1
        = some "note not found") := by
  have hne : ∀ msg : String, "failed to delete note: " ++ msg ≠ "note not found" :=
    fun msg => wrapped_ne_not_found _ "ailed to delete note: " msg rfl
  have hpos : (∃ r ∈ st, r.id = id) → (st.filter (fun r => r.id == id)).length ≠ 0 := by
    rintro ⟨r, hr, hid⟩
    have : r ∈ st.filter (fun r => r.id == id) := List.mem_filter.mpr ⟨hr, by simp [hid]⟩
    intro h0
    rw [List.length_eq_zero] at h0
    rw [h0] at this
    exact List.not_mem_nil _ this
  refine ⟨?_, ?_, fun h => ⟨?_, ?_, ?_⟩⟩
  · intro f
    unfold DB.DeleteNote
    rcases hex : execDelete f st id with ⟨res, st1⟩
    cases res with
    | error err =>
      simp only [Option.some.injEq, Prod.mk.injEq, false_and, exists_false, iff_false, reduceCtorEq]
      exact hne _
    | ok n =>
      by_cases hn : n = 0
      · simp [hn]
      · simp [hn]
  · intro f err st1 hex
    unfold DB.DeleteNote
    rw [hex]
    refine ⟨rfl, ?_⟩
    simp only [ne_eq, Option.some.injEq]
    exact hne _
  · simp [DB.DeleteNote, execDelete, hpos h]
  · intro r hr
    simp only [DB.DeleteNote, execDelete] at hr
    split at hr <;>
    · have := (List.mem_filter.mp hr).2
      simpa using this
  · simp only [DB.DeleteNote, execDelete, hpos h, if_false, filter_after_delete, List.length_nil,
      if_true]

/-- C6 on a table of one note. -/
theorem C6_delete_outcomes_witness :
    (∃ r ∈ [sampleRow], r.id = sampleRow.id) ∧
    (DB.DeleteNote Fault.none [sampleRow] sampleRow.id).1 = Option.none ∧
    (DB.DeleteNote Fault.none (DB.DeleteNote Fault.none [sampleRow] sampleRow.id).2
      sampleRow.id).1 = some "note not found" :=
  ⟨⟨sampleRow, by simp, rfl⟩,
   ((C6_delete_outcomes [sampleRow] sampleRow.id).2.2 ⟨sampleRow, by simp, rfl⟩).1,
   ((C6_delete_outcomes [sampleRow] sampleRow.id).2.2 ⟨sampleRow, by simp, rfl⟩).2.2⟩

/-- Outcome of the get gateway once a row was found: never the not-found outcome. -/
theorem GetNoteByID_found (st : Store) (id : UUID) (r : Row)
    (h : queryRowByID Fault.none st id = .ok r) :
    DB.GetNoteByID Fault.none st id ≠ .error "note not found" := by
  cases hs : scanNote r with
  | error msg =>
    have h1 : DB.GetNoteByID Fault.none st id = .error ("failed to get note: " ++ msg) := by
      simp [DB.GetNoteByID, DB.scanRowByID, h, hs]
    rw [h1]
    simp only [ne_eq, Except.error.injEq]
    exact wrapped_ne_not_found _ "ailed to get note: " msg rfl
  | ok res =>
    obtain ⟨note, md⟩ := res
    cases hu : unmarshalMetadata md with
    | error msg =>
      have h1 : DB.GetNoteByID Fault.none st id
          = .error ("failed to unmarshal metadata: " ++ msg) := by
        simp [DB.GetNoteByID, DB.scanRowByID, h, hs, hu]
      rw [h1]
      simp only [ne_eq, Except.error.injEq]
      exact wrapped_ne_not_found _ "ailed to unmarshal metadata: " msg rfl
    | ok m =>
      have h1 : DB.GetNoteByID Fault.none st id = .ok { note with Metadata := m } := by
        simp [DB.GetNoteByID, DB.scanRowByID, h, hs, hu]
      rw [h1]
      simp

/-- C7: the get gateway returns the not-found outcome exactly when the query ran without
fault and no row has the identifier; a failed query, a row that does not scan and
metadata that does not deserialise each give a read error with another message; so
an identifier that is absent from the table, or that was just deleted, gives
not-found on a store that answers. -/
theorem C7_get_not_found (st : Store) (id : UUID) :
    (∀ f, DB.GetNoteByID f st id = .error "note not found" ↔
      (f = Fault.none ∧ st.filter (fun r => r.id == id) = [])) ∧
    (∀ f msg, queryRowByID f st id = .error (.other msg) →
      DB.GetNoteByID f st id = .error ("failed to get note: " ++ msg) ∧
      DB.GetNoteByID f st id ≠ .error "note not found") ∧
    (∀ f r msg, queryRowByID f st id = .ok r → scanNote r = .error msg →
      DB.GetNoteByID f st id = .error ("failed to get note: " ++ msg) ∧
      DB.GetNoteByID f st id ≠ .error "note not found") ∧
    (∀ f r note md msg, queryRowByID f st id = .ok r → scanNote r = .ok (note, md) →
      unmarshalMetadata md = .error msg →
      DB.GetNoteByID f st id = .error ("failed to unmarshal metadata: " ++ msg) ∧
      DB.GetNoteByID f st id ≠ .error "note not found") ∧
    ((∀ r ∈ st, r.id ≠ id) → DB.GetNoteByID Fault.none st id = .error "note not found") ∧
    DB.GetNoteByID Fault.none (DB.DeleteNote Fault.none st id).2 id
      = .error "note not found" := by
  have hget : ∀ msg : String, "failed to get note: " ++ msg ≠ "note not found" :=
    fun msg => wrapped_ne_not_found _ "ailed to get note: " msg rfl
  have hun : ∀ msg : String, "failed to unmarshal metadata: " ++ msg ≠ "note not found" :=
    fun msg => wrapped_ne_not_found _ "ailed to unmarshal metadata: " msg rfl
  have hnil : ∀ st1 : Store, st1.filter (fun r => r.id == id) = [] →
      DB.GetNoteByID Fault.none st1 id = .error "note not found" := by
    intro st1 h
    simp [DB.GetNoteByID, DB.scanRowByID, queryRowByID, h]
  refine ⟨?_, ?_, ?_, ?_, ?_, ?_⟩
  · intro f
    cases f with
    | none =>
      constructor
      · intro h
        refine ⟨rfl, ?_⟩
        cases hfil : st.filter (fun r => r.id == id) with
        | nil => rfl
        | cons r rest =>
          have hq : queryRowByID Fault.none st id = .ok r := by simp [queryRowByID, hfil]
          exact absurd h (GetNoteByID_found st id r hq)
      · rintro ⟨_, h⟩
        exact hnil st h
    | call msg =>
      simp only [DB.GetNoteByID, DB.scanRowByID, queryRowByID, Except.error.injEq, reduceCtorEq,
        false_and, iff_false]
      exact hget msg
    | stream k msg =>
      simp only [DB.GetNoteByID, DB.scanRowByID, queryRowByID, Except.error.injEq, reduceCtorEq,
        false_and, iff_false]
      exact hget msg
  · intro f msg hq
    have h1 : DB.GetNoteByID f st id = .error ("failed to get note: " ++ msg) := by
      simp [DB.GetNoteByID, DB.scanRowByID, hq]
    refine ⟨h1, ?_⟩
    rw [h1]
    simp only [ne_eq, Except.error.injEq]
    exact hget msg
  · intro f r msg hq hs
    have h1 : DB.GetNoteByID f st id = .error ("failed to get note: " ++ msg) := by
      simp [DB.GetNoteByID, DB.scanRowByID, hq, hs]
    refine ⟨h1, ?_⟩
    rw [h1]
    simp only [ne_eq, Except.error.injEq]
    exact hget msg
  · intro f r note md msg hq hs hu
    have h1 : DB.GetNoteByID f st id = .error ("failed to unmarshal metadata: " ++ msg) := by
      simp [DB.GetNoteByID, DB.scanRowByID, hq, hs, hu]
    refine ⟨h1, ?_⟩
    rw [h1]
    simp only [ne_eq, Except.error.injEq]
    exact hun msg
  · intro h
    exact hnil st (filter_id_eq_nil st id h)
  · apply hnil
    simp only [DB.DeleteNote, execDelete]
    split <;> exact filter_after_delete st id

/-- C7 on a table of one note and another identifier. -/
theorem C7_get_not_found_witness :
    (∀ r ∈ [sampleRow], r.id ≠ uuidNil) ∧
    DB.GetNoteByID Fault.none [sampleRow] uuidNil = .error "note not found" :=
  ⟨by decide, (C7_get_not_found [sampleRow] uuidNil).2.2.2.2.1 (by decide)⟩

/-- C8 fails on a Go integer, on a nil slice or nested map and on a typed value: the
metadata `count: 1` with `1` an `int` comes back with `1` a `float64`; `tags: nil`
with `nil` a nil `[]interface{}`, and `opts: nil` with `nil` a nil
`map[string]interface{}`, come back with the untyped nil; `names: ["a"]` with the
value a `[]string` comes back with a `[]interface{}`; each is another value of the
interface type than the one that went in. -/
theorem C8_int_comes_back_as_float64 :
    metadataRoundTrip (some [("count", GoValue.int 1)])
      = .ok (some [("count", GoValue.float64 ⟨0x3FF0000000000000⟩)]) ∧
    GoValue.float64 ⟨0x3FF0000000000000⟩ ≠ GoValue.int 1 ∧
    metadataRoundTrip (some [("tags", GoValue.nilSlice)])
      = .ok (some [("tags", GoValue.null)]) ∧
    GoValue.null ≠ GoValue.nilSlice ∧
    metadataRoundTrip (some [("opts", GoValue.nilMap)])
      = .ok (some [("opts", GoValue.null)]) ∧
    GoValue.null ≠ GoValue.nilMap ∧
    metadataRoundTrip (some [("names", GoValue.typed (GoValue.slice [GoValue.str "a"]))])
      = .ok (some [("names", GoValue.slice [GoValue.str "a"])]) ∧
    GoValue.slice [GoValue.str "a"] ≠ GoValue.typed (GoValue.slice [GoValue.str "a"]) := by
  refine ⟨rfl, ?_, rfl, ?_, rfl, ?_, rfl, ?_⟩
  · intro h; cases h
  · intro h; cases h
  · intro h; cases h
  · intro h; cases h

/-- C8 as amended: when the metadata serialises, deserialising the result succeeds and
gives the nil map for the nil map and otherwise a map with the same keys in which
every key holds the JSON form of its value: a bool, a `float64`, a string, a non-nil
`[]interface{}` and a non-nil `map[string]interface{}` keep their type (and their
value, their elements being taken in JSON form in turn), a Go integer `n` becomes
`float64(n)`, a nil slice and a nil nested map become the untyped nil, a value of
another type becomes the value the decoder builds from its text; the result holds
only values of the kinds the decoder produces, and metadata that holds only such
values comes back unchanged. -/
theorem C8_metadata_round_trip (m : Metadata) (j : JSON) (h : marshalMetadata m = some j) :
    metadataRoundTrip m = .ok (m.map jsonFormFields) ∧
    (∀ kvs, m = some kvs →
      (jsonFormFields kvs).map Prod.fst = kvs.map Prod.fst ∧
      (∀ k, (jsonFormFields kvs).lookup k = (kvs.lookup k).map jsonForm) ∧
      decoderKindFields (jsonFormFields kvs) = true ∧
      (decoderKindFields kvs = true → metadataRoundTrip m = .ok m)) ∧
    (m = Option.none → metadataRoundTrip m = .ok Option.none) ∧
    (∀ b, jsonForm (GoValue.bool b) = GoValue.bool b) ∧
    (∀ x, jsonForm (GoValue.float64 x) = GoValue.float64 x) ∧
    (∀ s, jsonForm (GoValue.str s) = GoValue.str s) ∧
    (∀ xs, jsonForm (GoValue.slice xs) = GoValue.slice (jsonFormList xs)) ∧
    (∀ kvs, jsonForm (GoValue.map kvs) = GoValue.map (jsonFormFields kvs)) ∧
    (∀ n, jsonForm (GoValue.int n) = GoValue.float64 (float64OfInt n)) ∧
    jsonForm GoValue.nilSlice = GoValue.null ∧
    jsonForm GoValue.nilMap = GoValue.null ∧
    jsonForm GoValue.null = GoValue.null ∧
    (∀ v, jsonForm (GoValue.typed v) = jsonForm v) := by
  have hrt : metadataRoundTrip m = .ok (m.map jsonFormFields) := by
    simp only [metadataRoundTrip, h, unmarshal_marshalMetadata m j h]
  refine ⟨hrt, ?_, ?_, fun _ => rfl, fun _ => rfl, fun _ => rfl, fun _ => rfl, fun _ => rfl,
    fun _ => rfl, rfl, rfl, rfl, fun _ => rfl⟩
  · intro kvs hm
    subst hm
    simp only [marshalMetadata, Option.map_eq_some'] at h
    obtain ⟨js, hjs, _⟩ := h
    refine ⟨jsonFormFields_keys kvs, jsonFormFields_lookup kvs,
      decoderKindFields_jsonForm kvs js hjs, ?_⟩
    intro hkind
    rw [hrt, Option.map_some', jsonFormFields_decoderKind kvs hkind]
  · intro hm
    rw [hrt, hm]
    rfl

/-- C8 on metadata with a nested map, a string, a float and an array. -/
theorem C8_metadata_round_trip_witness :
    marshalMetadata (some [("tags", GoValue.map [("a", GoValue.str "x")]),
        ("score", GoValue.float64 ⟨0x3FF8000000000000⟩),
        ("list", GoValue.slice [GoValue.bool true, GoValue.null])])
      = some (JSON.obj [("tags", JSON.obj [("a", JSON.str "x")]),
        ("score", JSON.num (JNumber.float ⟨0x3FF8000000000000⟩)),
        ("list", JSON.arr [JSON.bool true, JSON.null])]) ∧
    metadataRoundTrip (some [("tags", GoValue.map [("a", GoValue.str "x")]),
        ("score", GoValue.float64 ⟨0x3FF8000000000000⟩),
        ("list", GoValue.slice [GoValue.bool true, GoValue.null])])
      = .ok (some [("tags", GoValue.map [("a", GoValue.str "x")]),
        ("score", GoValue.float64 ⟨0x3FF8000000000000⟩),
        ("list", GoValue.slice [GoValue.bool true, GoValue.null])]) :=
  ⟨rfl, (C8_metadata_round_trip
    (some [("tags", GoValue.map [("a", GoValue.str "x")]),
        ("score", GoValue.float64 ⟨0x3FF8000000000000⟩),
        ("list", GoValue.slice [GoValue.bool true, GoValue.null])]) _ rfl).1⟩

/-- The list loop succeeds exactly when the cursor ends without error and every row
goes through the loop body; it then appends one note per row, in order. -/
theorem listLoop_ok (err : Option String) (rows : List Row) :
    ∀ (acc notes : List Note), DB.listLoop err rows acc = .ok notes →
      err = Option.none ∧
      ∃ tail, notes = acc ++ tail ∧ List.Forall₂ (fun r n => DB.listBody r = .ok n) rows tail := by
  induction rows with
  | nil =>
    intro acc notes h
    cases err with
    | none =>
      simp only [DB.listLoop, Except.ok.injEq] at h
      exact ⟨rfl, [], by simp [h], List.Forall₂.nil⟩
    | some msg => simp [DB.listLoop] at h
  | cons r rest ih =>
    intro acc notes h
    unfold DB.listLoop at h
    cases hb : DB.listBody r with
    | error msg => simp [hb] at h
    | ok note =>
      simp only [hb] at h
      obtain ⟨herr, tail, htail, hall⟩ := ih _ _ h
      exact ⟨herr, note :: tail, by simp [htail], List.Forall₂.cons hb hall⟩

/-- The list loop fails as soon as one row does not go through the loop body. -/
theorem listLoop_fails (err : Option String) (rows : List Row) :
    ∀ (acc : List Note), (∃ r ∈ rows, ∃ msg, DB.listBody r = .error msg) →
      ∃ msg, DB.listLoop err rows acc = .error msg := by
  induction rows with
  | nil => intro acc h; obtain ⟨r, hr, _⟩ := h; cases hr
  | cons r rest ih =>
    intro acc h
    unfold DB.listLoop
    cases hb : DB.listBody r with
    | error msg => exact ⟨msg, rfl⟩
    | ok note =>
      obtain ⟨r1, hr1, msg, hmsg⟩ := h
      rcases List.mem_cons.mp hr1 with rfl | hmem
      · rw [hb] at hmsg; cases hmsg
      · exact ih _ ⟨r1, hmem, msg, hmsg⟩

/-- What the loop body keeps of a row. -/
theorem listBody_fields (r : Row) (n : Note) (h : DB.listBody r = .ok n) :
    r.id = n.ID ∧ r.created_at = some n.CreatedAt := by
  obtain ⟨id, uid, title, content, chunk, emb, md, created, updated⟩ := r
  cases title <;> cases content <;> cases chunk <;> cases created <;> cases updated <;>
    simp only [DB.listBody, scanNote] at h <;> try cases h
  split at h
  · cases h
  · simp only [Except.ok.injEq] at h
    subst h
    exact ⟨rfl, rfl⟩

/-- Transport of a pairwise relation along two lists related element by element. -/
theorem pairwise_of_forall₂ {α β : Type} {R : α → β → Prop} {P : α → α → Prop}
    {Q : β → β → Prop} (hPQ : ∀ a b a1 b1, R a a1 → R b b1 → P a b → Q a1 b1) :
    ∀ {l1 : List α} {l2 : List β}, List.Forall₂ R l1 l2 → l1.Pairwise P → l2.Pairwise Q := by
  intro l1 l2 h
  induction h with
  | nil => intro _; exact List.Pairwise.nil
  | @cons a a1 t t1 hR hall ih =>
    intro hp
    rw [List.pairwise_cons] at hp ⊢
    refine ⟨?_, ih hp.2⟩
    intro b1 hb1
    have : ∃ b ∈ t, R b b1 := by
      clear ih hp
      induction hall with
      | nil => cases hb1
      | @cons c c1 u u1 hRc _ ih2 =>
        rcases List.mem_cons.mp hb1 with rfl | hm
        · exact ⟨c, List.mem_cons_self _ _, hRc⟩
        · obtain ⟨b, hb, hRb⟩ := ih2 hm
          exact ⟨b, List.mem_cons_of_mem _ hb, hRb⟩
    obtain ⟨b, hb, hRb⟩ := this
    exact hPQ a b a1 b1 hR hRb (hp.1 b hb)

/-- The order of `ORDER BY created_at DESC` compares any two rows. -/
theorem createdDesc_total (a b : Row) : createdDesc a b = true ∨ createdDesc b a = true := by
  unfold createdDesc
  cases ha : a.created_at <;> cases hb : b.created_at <;> simp
  exact le_total _ _

/-- The order of `ORDER BY created_at DESC` is transitive. -/
theorem createdDesc_trans (a b c : Row) :
    createdDesc a b = true → createdDesc b c = true → createdDesc a c = true := by
  unfold createdDesc
  cases ha : a.created_at <;> cases hb : b.created_at <;> cases hc : c.created_at <;> simp
  exact fun h1 h2 => le_trans h2 h1

/-- The rows the list statement selects are in descending order of `created_at`. -/
theorem page_sorted (st : Store) (limit offset : Nat) :
    ((((st.insertionSort (fun a b => createdDesc a b = true)).drop offset).take limit)).Pairwise
      (fun a b => createdDesc a b = true) := by
  have hs : (st.insertionSort (fun a b => createdDesc a b = true)).Pairwise
      (fun a b => createdDesc a b = true) :=
    @List.sorted_insertionSort Row (fun a b => createdDesc a b = true) _
      ⟨createdDesc_total⟩ ⟨createdDesc_trans⟩ st
  exact (hs.sublist (List.drop_sublist _ _)).sublist (List.take_sublist _ _)

/-- A successful list call ran without fault; its notes are the selected rows, each
through the loop body. -/
theorem GetAllNotes_ok (f : Fault) (st : Store) (limit offset : Int) (notes : List Note)
    (h : DB.GetAllNotes f st limit offset = .ok notes) :
    0 ≤ limit ∧ 0 ≤ offset ∧
    List.Forall₂ (fun r n => DB.listBody r = .ok n)
      (((st.insertionSort (fun a b => createdDesc a b = true)).drop offset.toNat).take
        limit.toNat) notes := by
  unfold DB.GetAllNotes queryAllNotes at h
  by_cases h1 : limit < 0
  · simp [h1] at h
  by_cases h2 : offset < 0
  · simp [h1, h2] at h
  simp only [h1, h2, if_false] at h
  refine ⟨not_lt.mp h1, not_lt.mp h2, ?_⟩
  cases f with
  | none =>
    simp only [Rows.deliver] at h
    obtain ⟨_, tail, htail, hall⟩ := listLoop_ok _ _ _ _ h
    simp only [List.nil_append] at htail
    rw [htail]
    exact hall
  | call msg => simp [Rows.deliver] at h
  | stream k msg =>
    simp only [Rows.deliver] at h
    obtain ⟨herr, _⟩ := listLoop_ok _ _ _ _ h
    cases herr
/-- The list handler calls the gateway once, with a limit of at least 1 and an offset of
at least 0, and shapes its response on the outcome alone. -/
theorem list_handler_outcome (f : Fault) (st : Store) (limitQ offsetQ : Option String) :
    ∃ lim off, 1 ≤ lim ∧ 0 ≤ off ∧
      (NotesHandler.GetAllNotes f st limitQ offsetQ).calls = [GatewayCall.GetAllNotes lim off] ∧
      (∀ ns, DB.GetAllNotes f st lim off = .ok ns →
        (NotesHandler.GetAllNotes f st limitQ offsetQ).response
          = ⟨200, [("notes", .notes ns), ("limit", .int lim), ("offset", .int off),
              ("count", .int ns.length)]⟩) ∧
      (∀ msg, DB.GetAllNotes f st lim off = .error msg →
        (NotesHandler.GetAllNotes f st limitQ offsetQ).response
          = ⟨500, [("error", .str "Failed to retrieve notes")]⟩) := by
  refine ⟨(match Atoi (DefaultQuery limitQ "20") with
      | Option.none => 20
      | some limit => if limit ≤ 0 then 20 else limit),
    (match Atoi (DefaultQuery offsetQ "0") with
      | Option.none => 0
      | some offset => if offset < 0 then 0 else offset), ?_, ?_, ?_, ?_, ?_⟩
  · split
    · omega
    · split <;> omega
  · split
    · omega
    · split <;> omega
  · unfold NotesHandler.GetAllNotes
    simp only
    split <;> rfl
  · intro ns hns
    unfold NotesHandler.GetAllNotes
    simp only [hns]
  · intro msg hmsg
    unfold NotesHandler.GetAllNotes
    simp only [hmsg]

/-- C10: a successful list call with non-negative bounds over a table of `n` notes
returns exactly `min(limit, max(0, n - offset))` notes, in descending order of
`created_at`; on a store that answers, an offset at or past the end gives the empty
sequence and no error; the list handler calls the gateway once and, whenever that
call succeeds, answers 200 with the notes the gateway returned and their number as
`count`. -/
theorem C10_list_page (f : Fault) (st : Store) (limit offset : Int) :
    (∀ notes, 0 ≤ limit → 0 ≤ offset → DB.GetAllNotes f st limit offset = .ok notes →
      (notes.length : Int) = min limit (max 0 ((st.length : Int) - offset)) ∧
      notes.Pairwise (fun a b => b.CreatedAt ≤ a.CreatedAt)) ∧
    (0 ≤ limit → 0 ≤ offset → (st.length : Int) ≤ offset →
      DB.GetAllNotes Fault.none st limit offset = .ok []) ∧
    (∀ limitQ offsetQ, ∃ lim off, 1 ≤ lim ∧ 0 ≤ off ∧
      (NotesHandler.GetAllNotes f st limitQ offsetQ).calls = [GatewayCall.GetAllNotes lim off] ∧
      (∀ ns, DB.GetAllNotes f st lim off = .ok ns →
        (NotesHandler.GetAllNotes f st limitQ offsetQ).response
          = ⟨200, [("notes", .notes ns), ("limit", .int lim), ("offset", .int off),
              ("count", .int ns.length)]⟩)) := by
  refine ⟨fun notes hl ho h => ?_, fun hl ho => ?_, ?_⟩
  rotate_left
  · intro hst
    have hdrop : (st.insertionSort (fun a b => createdDesc a b = true)).drop offset.toNat = [] := by
      apply List.drop_eq_nil_of_le
      rw [List.length_insertionSort]
      omega
    simp [DB.GetAllNotes, queryAllNotes, not_lt.mpr hl, not_lt.mpr ho, Rows.deliver, hdrop,
      DB.listLoop]
  · intro limitQ offsetQ
    obtain ⟨lim, off, h1, h2, h3, h4, _⟩ := list_handler_outcome f st limitQ offsetQ
    exact ⟨lim, off, h1, h2, h3, h4⟩
  obtain ⟨_, _, hall⟩ := GetAllNotes_ok f st limit offset notes h
  refine ⟨?_, ?_⟩
  · have hlen := hall.length_eq
    simp only [List.length_take, List.length_drop, List.length_insertionSort] at hlen
    omega
  · exact pairwise_of_forall₂
      (fun a b a1 b1 ha hb hab => by
        have h1 := (listBody_fields a a1 ha).2
        have h2 := (listBody_fields b b1 hb).2
        simp only [createdDesc, h1, h2, decide_eq_true_eq] at hab
        exact hab)
      hall (page_sorted st limit.toNat offset.toNat)

/-- C10 on five notes, limit 2 and offset 0: the gateway returns the two newest notes,
newest first, and the handler answers 200 with those two notes and `count` 2. -/
theorem C10_list_page_witness :
    (0 : Int) ≤ 2 ∧ (0 : Int) ≤ 0 ∧
    (∃ a b, DB.GetAllNotes Fault.none fiveNotes 2 0 = .ok [a, b] ∧
      a.CreatedAt = 50 ∧ b.CreatedAt = 40 ∧
      (NotesHandler.GetAllNotes Fault.none fiveNotes (some "2") (some "0")).response
        = ⟨200, [("notes", .notes [a, b]), ("limit", .int 2), ("offset", .int 0),
            ("count", .int 2)]⟩) ∧
    (NotesHandler.GetAllNotes Fault.none fiveNotes (some "2") (some "0")).calls
      = [GatewayCall.GetAllNotes 2 0] ∧
    ∀ notes, DB.GetAllNotes Fault.none fiveNotes 2 0 = .ok notes →
      (notes.length : Int) = min 2 (max 0 ((fiveNotes.length : Int) - 0)) ∧
      notes.Pairwise (fun a b => b.CreatedAt ≤ a.CreatedAt) :=
  ⟨by decide, by decide, ⟨_, _, rfl, rfl, rfl, rfl⟩, rfl,
    fun notes h => (C10_list_page Fault.none fiveNotes 2 0).1 notes (by decide) (by decide) h⟩

/-- The search loop succeeds exactly when the cursor ends without error and every row
goes through the loop body; it then appends one result per row, in order. -/
theorem searchLoop_ok (err : Option String) (rows : List (Row × Option Float32)) :
    ∀ (acc results : List SearchResult), DB.searchLoop err rows acc = .ok results →
      err = Option.none ∧
      ∃ tail, results = acc ++ tail ∧
        List.Forall₂ (fun row res => DB.searchBody row = .ok res) rows tail := by
  induction rows with
  | nil =>
    intro acc results h
    cases err with
    | none =>
      simp only [DB.searchLoop, Except.ok.injEq] at h
      exact ⟨rfl, [], by simp [h], List.Forall₂.nil⟩
    | some msg => simp [DB.searchLoop] at h
  | cons r rest ih =>
    intro acc results h
    unfold DB.searchLoop at h
    cases hb : DB.searchBody r with
    | error msg => simp [hb] at h
    | ok res =>
      simp only [hb] at h
      obtain ⟨herr, tail, htail, hall⟩ := ih _ _ h
      exact ⟨herr, res :: tail, by simp [htail], List.Forall₂.cons hb hall⟩

/-- The search loop fails as soon as one row does not go through the loop body. -/
theorem searchLoop_fails (err : Option String) (rows : List (Row × Option Float32)) :
    ∀ (acc : List SearchResult), (∃ r ∈ rows, ∃ msg, DB.searchBody r = .error msg) →
      ∃ msg, DB.searchLoop err rows acc = .error msg := by
  induction rows with
  | nil => intro acc h; obtain ⟨r, hr, _⟩ := h; cases hr
  | cons r rest ih =>
    intro acc h
    unfold DB.searchLoop
    cases hb : DB.searchBody r with
    | error msg => exact ⟨msg, rfl⟩
    | ok res =>
      obtain ⟨r1, hr1, msg, hmsg⟩ := h
      rcases List.mem_cons.mp hr1 with rfl | hmem
      · rw [hb] at hmsg; cases hmsg
      · exact ih _ ⟨r1, hmem, msg, hmsg⟩

/-- What the search loop body keeps of a row. -/
theorem searchBody_fields (row : Row × Option Float32) (res : SearchResult)
    (h : DB.searchBody row = .ok res) :
    row.1.id = res.Note.ID ∧ row.2 = some res.SimilarityScore := by
  obtain ⟨⟨id, uid, title, content, chunk, emb, md, created, updated⟩, score⟩ := row
  cases title <;> cases content <;> cases chunk <;> cases created <;> cases updated <;>
    cases score <;> simp only [DB.searchBody, scanNote] at h <;> try cases h
  split at h
  · cases h
  · simp only [Except.ok.injEq] at h
    subst h
    exact ⟨rfl, rfl⟩

/-- The rows the search statement selects are in ascending order of score, NULL last. -/
theorem similar_sorted (rows : List (Row × Option Float32)) (limit : Nat) :
    ((rows.insertionSort (fun a b => scoreRank a.2 ≤ scoreRank b.2)).take limit).Pairwise
      (fun a b => scoreRank a.2 ≤ scoreRank b.2) := by
  have hs : (rows.insertionSort (fun a b => scoreRank a.2 ≤ scoreRank b.2)).Pairwise
      (fun a b => scoreRank a.2 ≤ scoreRank b.2) :=
    @List.sorted_insertionSort (Row × Option Float32)
      (fun a b => scoreRank a.2 ≤ scoreRank b.2) _
      ⟨fun a b => le_total _ _⟩ ⟨fun a b c h1 h2 => le_trans h1 h2⟩ rows
  exact hs.sublist (List.take_sublist _ _)

/-- A successful search ran without fault; its results are the selected rows, each
through the loop body. -/
theorem SearchNotes_ok (dist : List Float32 → List Float32 → Float32) (f : Fault)
    (st : Store) (q : List Float32) (limit : Int) (results : List SearchResult)
    (h : DB.SearchNotesBySimilarity dist f st q limit = .ok results) :
    0 ≤ limit ∧
    querySimilar dist f st q limit
      = .ok ⟨((st.map (fun r => (r, similarityScore dist q r))).insertionSort
          (fun a b => scoreRank a.2 ≤ scoreRank b.2)).take limit.toNat, Option.none⟩ ∧
    List.Forall₂ (fun row res => DB.searchBody row = .ok res)
      (((st.map (fun r => (r, similarityScore dist q r))).insertionSort
          (fun a b => scoreRank a.2 ≤ scoreRank b.2)).take limit.toNat) results := by
  unfold DB.SearchNotesBySimilarity at h
  unfold querySimilar at h ⊢
  by_cases h1 : limit < 0
  · simp [h1] at h
  by_cases hdim : (st.any (fun r =>
      match r.embedding with
      | Option.none => false
      | some e => q != [] && e.length != q.length)) = true
  · simp [h1, hdim] at h
  simp only [h1, hdim, if_false] at h ⊢
  refine ⟨not_lt.mp h1, ?_⟩
  cases f with
  | none =>
    simp only [Rows.deliver] at h ⊢
    obtain ⟨_, tail, htail, hall⟩ := searchLoop_ok _ _ _ _ h
    simp only [List.nil_append] at htail
    rw [htail]
    exact ⟨by simp, hall⟩
  | call msg => simp [Rows.deliver] at h
  | stream k msg =>
    simp only [Rows.deliver] at h
    obtain ⟨herr, _⟩ := searchLoop_ok _ _ _ _ h
    cases herr
/-- C9: a successful similarity search with a non-negative limit returns results whose
scores ascend in the store's order of floating-point numbers (which is the order `<=`
of Go when no score is NaN), at most `limit` of them, exactly one per row the store returned and in
the store's order; and the search fails as a whole as soon as one returned row does
not scan or its metadata does not deserialise. -/
theorem C9_search_order (dist : List Float32 → List Float32 → Float32) (f : Fault)
    (st : Store) (queryEmbedding : List Float32) (limit : Int) :
    (∀ results, 0 ≤ limit →
      DB.SearchNotesBySimilarity dist f st queryEmbedding limit = .ok results →
      results.Pairwise (fun a b => a.SimilarityScore.pgRank ≤ b.SimilarityScore.pgRank) ∧
      ((∀ r ∈ results, r.SimilarityScore.isNaN = false) →
        results.Pairwise (fun a b => Float32.le a.SimilarityScore b.SimilarityScore = true)) ∧
      (results.length : Int) ≤ limit ∧
      ∃ rows, querySimilar dist f st queryEmbedding limit = .ok rows ∧
        rows.err = Option.none ∧ results.length = rows.rows.length ∧
        List.Forall₂ (fun row res => DB.searchBody row = .ok res ∧
          row.1.id = res.Note.ID ∧ row.2 = some res.SimilarityScore) rows.rows results) ∧
    (∀ rows, querySimilar dist f st queryEmbedding limit = .ok rows →
      (∃ row ∈ rows.rows, ∃ msg, DB.searchBody row = .error msg) →
      ∃ msg, DB.SearchNotesBySimilarity dist f st queryEmbedding limit = .error msg) := by
  refine ⟨fun results hl h => ?_, fun rows hq hfail => ?_⟩
  · obtain ⟨_, hq, hall⟩ := SearchNotes_ok dist f st queryEmbedding limit results h
    have hrank : results.Pairwise
        (fun a b => a.SimilarityScore.pgRank ≤ b.SimilarityScore.pgRank) :=
      pairwise_of_forall₂
        (fun a b a1 b1 ha hb hab => by
          have h1 := (searchBody_fields a a1 ha).2
          have h2 := (searchBody_fields b b1 hb).2
          simp only [h1, h2, scoreRank] at hab
          exact hab)
        hall (similar_sorted _ limit.toNat)
    refine ⟨hrank, ?_, ?_, ?_⟩
    · intro hnan
      refine hrank.imp_of_mem ?_
      intro a b ha hb hab
      have h1 := hnan a ha
      have h2 := hnan b hb
      simp only [Float32.pgRank, h1, h2, Bool.false_eq_true, if_false] at hab
      simp [Float32.le, h1, h2, hab]
    · have hlen := hall.length_eq
      simp only [List.length_take] at hlen
      omega
    · refine ⟨_, hq, rfl, hall.length_eq.symm, ?_⟩
      exact hall.imp (fun row res hb => ⟨hb, searchBody_fields row res hb⟩)
  · unfold DB.SearchNotesBySimilarity
    rw [hq]
    exact searchLoop_fails rows.err rows.rows [] hfail

/-- C9 on three notes with scores 2.0, 1.0 and 3.0 and limit 2: the scores 1.0 and 2.0,
in that order. -/
theorem C9_search_order_witness :
    (0 : Int) ≤ 2 ∧
    (∃ a b, DB.SearchNotesBySimilarity sampleDist Fault.none threeVectors [⟨0⟩] 2 = .ok [a, b] ∧
      a.SimilarityScore = ⟨0x3F800000⟩ ∧ b.SimilarityScore = ⟨0x40000000⟩) ∧
    ∀ results, DB.SearchNotesBySimilarity sampleDist Fault.none threeVectors [⟨0⟩] 2
        = .ok results →
      results.Pairwise (fun a b => a.SimilarityScore.pgRank ≤ b.SimilarityScore.pgRank) ∧
      (results.length : Int) ≤ 2 :=
  ⟨by decide, ⟨_, _, rfl, rfl, rfl⟩,
    fun results h =>
      ⟨((C9_search_order sampleDist Fault.none threeVectors [⟨0⟩] 2).1 results (by decide) h).1,
       ((C9_search_order sampleDist Fault.none threeVectors [⟨0⟩] 2).1 results (by decide)
        h).2.2.1⟩⟩

end Supernote
